import Mathlib

/-!
# MPPI optimizer: a shallow embedding of `mppic`

The embedding follows `include/mppic/optimization/OptimizerImpl.hpp` and
`include/mppic/optimization/scoring/critics/GoalCritic.hpp`.

Conventions.

* Scalars (`T = float/double` in the source) are elements of a linearly ordered
  field `α`; arithmetic is exact, round-off is not modelled.  The transcendental
  functions of the source (`xt::exp`, `xt::cos`, `xt::sin`, the square root of
  `xt::norm_l2`) are arguments of the definitions, so that the definitions run
  on `ℚ`; the theorems instantiate them with `Real.exp`, `Real.cos`, `Real.sin`
  and `Real.sqrt`.
* The model tracks finite values only.  The scalar type has a largest finite
  value `fmax` (`some m`; `none` stands for exact reals, with no bound).  A
  division by zero, and a quotient, an exponential or a normalising sum of
  `updateControlSequence` that exceeds `fmax` in absolute value, is an infinity
  or a NaN in IEEE arithmetic: the model returns `none` there and does not say
  what the tensors hold afterwards, see `isFinite`, `fdiv` and `exponents`.
* Tensors are functions on `Fin`: an `xt::xtensor<T, 3>` of shape `[B, H, C]` is
  `Fin B → Fin H → Fin C → α`.  The shapes `B` and `H` of the tensors of an
  optimizer are the `batch_size_` and `time_steps_` that `reset` shaped them
  with; the operations that index row 0 or the last row, or reduce over the
  batch, are defined for non-empty axes (`NeZero`).
-/

namespace mppi.optimization

variable {α : Type} [LinearOrderedField α]

/-! ## Motion models and column layout -/

/-- Modelled from the spec: `MotionModel.hpp` is not among the sources.  The
motion model is a tagged variant with members Differential, Omnidirectional
and Ackermann. -/
inductive MotionModel where
  | Differential
  | Omnidirectional
  | Ackermann
  deriving DecidableEq, Repr

/-- Modelled from the spec: the holonomic predicate of `MotionModel.hpp`.  The
lateral velocity `vy` exists for the omnidirectional model only. -/
def isHolonomic : MotionModel → Bool
  | MotionModel.Omnidirectional => true
  | MotionModel.Differential => false
  | MotionModel.Ackermann => false

/-- Modelled from the spec: the table `MOTION_MODEL_NAMES_MAP` of
`MotionModel.hpp`, as its lookup `nmap.find(name)`.  The names recognised are
"diff", "omni" and "ackermann". -/
def MOTION_MODEL_NAMES_MAP (name : String) : Option MotionModel :=
  if name = "diff" then some MotionModel.Differential
  else if name = "omni" then some MotionModel.Omnidirectional
  else if name = "ackermann" then some MotionModel.Ackermann
  else none

/-- Number of control columns of a motion model: `(vx, wz)`, or `(vx, vy, wz)`
when holonomic (the two `xt::concatenate` calls of `generateNoisedControls`). -/
def controlDim (m : MotionModel) : ℕ :=
  if isHolonomic m = true then 3 else 2

/-- Column of `vx` among the control (and velocity) columns: the first block
of the `xt::concatenate` calls of `generateNoisedControls`. -/
def idxVX (m : MotionModel) : Fin (controlDim m) :=
  ⟨0, by cases m <;> decide⟩

/-- Column of `wz` among the control (and velocity) columns: the last block
of the `xt::concatenate` calls of `generateNoisedControls`. -/
def idxWZ (m : MotionModel) : Fin (controlDim m) :=
  ⟨controlDim m - 1, by cases m <;> decide⟩

/-- Column of `vy` among the control (and velocity) columns; it exists for a
holonomic model only, between `vx` and `wz`. -/
def idxVY (m : MotionModel) (_h : isHolonomic m = true) : Fin (controlDim m) :=
  ⟨1, by cases m <;> decide⟩

/-- Modelled from the spec: the index set `state_.idx` of `State.hpp` (not
among the sources).  A row of the state tensor is a contiguous block of named
columns, the control columns `vx_cmd`, optional `vy_cmd`, `wz_cmd`, the velocity
columns `vx`, optional `vy`, `wz`, and the time delta `dt`; the offsets are
determined by the motion model alone. -/
structure StateIdxes where
  cvx : ℕ
  cvy : Option ℕ
  cwz : ℕ
  vx : ℕ
  vy : Option ℕ
  wz : ℕ
  dt : ℕ
  dim : ℕ
  deriving DecidableEq, Repr

/-- Modelled from the spec: `StateIdxes::setLayout(motion_model)`. -/
def StateIdxes.setLayout (m : MotionModel) : StateIdxes :=
  if isHolonomic m = true then
    { cvx := 0, cvy := some 1, cwz := 2, vx := 3, vy := some 4, wz := 5, dt := 6, dim := 7 }
  else
    { cvx := 0, cvy := none, cwz := 1, vx := 2, vy := none, wz := 3, dt := 4, dim := 5 }

/-- Modelled from the spec: the index set `control_sequence_.idx` of
`ControlSequence.hpp` (not among the sources): the columns `vx`, optional `vy`,
`wz` of the nominal control sequence. -/
structure ControlSequenceIdxes where
  vx : ℕ
  vy : Option ℕ
  wz : ℕ
  dim : ℕ
  deriving DecidableEq, Repr

/-- Modelled from the spec: `ControlSequnceIdxes::setLayout(motion_model)`. -/
def ControlSequenceIdxes.setLayout (m : MotionModel) : ControlSequenceIdxes :=
  if isHolonomic m = true then { vx := 0, vy := some 1, wz := 2, dim := 3 }
  else { vx := 0, vy := none, wz := 1, dim := 2 }

/-! ## Messages -/

/-- The message `geometry_msgs::msg::Twist`, reduced to the three components
the optimizer reads and writes. -/
structure Twist (α : Type) where
  linear_x : α
  linear_y : α
  angular_z : α

/-- The message `geometry_msgs::msg::PoseStamped`: the position `x`, `y` and
the orientation, held as its yaw angle `tf2::getYaw(pose.pose.orientation)`. -/
structure PoseStamped (α : Type) where
  x : α
  y : α
  yaw : α

/-- The function `xt::clip` on one entry: `v < lo ? lo : (hi < v ? hi : v)`. -/
def clip (v lo hi : α) : α :=
  if v < lo then lo else if hi < v then hi else v

/-- Whether a value is finite in the scalar type whose largest finite value is
`fmax`; with `fmax = none`, exact reals, every value is. -/
def isFinite (fmax : Option α) (x : α) : Bool :=
  match fmax with
  | none => true
  | some m => decide (|x| ≤ m)

/-- Division of scalars: a finite value when the divisor is not zero and the
quotient does not exceed the largest finite value. -/
def fdiv (fmax : Option α) (x y : α) : Option α :=
  if y = 0 then none else if isFinite fmax (x / y) = true then some (x / y) else none

/-- The reduction `xt::amin(costs, immediate)` over a non-empty rank-1 tensor. -/
def amin {B : ℕ} [NeZero B] (costs : Fin B → α) : α :=
  Finset.univ.inf' ⟨0, Finset.mem_univ _⟩ costs

/-- The reduction `xt::amax` over a non-empty rank-1 tensor. -/
def amax {B : ℕ} [NeZero B] (costs : Fin B → α) : α :=
  Finset.univ.sup' ⟨0, Finset.mem_univ _⟩ costs

/-! ## `updateControlSequence` -/

/-- The local `costs_normalized` of `updateControlSequence`:
`costs - xt::amin(costs, immediate)`. -/
def costs_normalized {B : ℕ} [NeZero B] (costs : Fin B → α) : Fin B → α :=
  fun b => costs b - amin costs

/-- The local `exponents` of `updateControlSequence`:
`xt::exp(-1 / temperature_ * costs_normalized)`.  The scale `-1 / temperature_`
and every exponential have to be finite. -/
def exponents {B : ℕ} [NeZero B] (fmax : Option α) (exp : α → α) (temperature : α)
    (costs : Fin B → α) : Option (Fin B → α) :=
  (fdiv fmax (-1) temperature).bind fun k =>
    if ∀ b, isFinite fmax (exp (k * costs_normalized costs b)) = true then
      some fun b => exp (k * costs_normalized costs b)
    else none

/-- The local `softmaxes` of `updateControlSequence`:
`exponents / xt::sum(exponents, immediate)`.  The sum has to be finite and not
zero. -/
def softmaxes {B : ℕ} [NeZero B] (fmax : Option α) (exp : α → α) (temperature : α)
    (costs : Fin B → α) : Option (Fin B → α) :=
  (exponents fmax exp temperature costs).bind fun e =>
    if (∑ b, e b) = 0 then none
    else if isFinite fmax (∑ b, e b) = true then some (fun b => e b / ∑ b, e b)
    else none

/-- The new `control_sequence_.data` computed by `updateControlSequence(costs)`:
`xt::sum(state_.getControls() * softmaxes_expanded, 0)`. -/
def updateControlSequence {B H C : ℕ} [NeZero B] (fmax : Option α) (exp : α → α)
    (temperature : α) (controls : Fin B → Fin H → Fin C → α) (costs : Fin B → α) :
    Option (Fin H → Fin C → α) :=
  (softmaxes fmax exp temperature costs).map fun w => fun t c => ∑ b, controls b t c * w b

/-! ## The optimizer: parameters -/

/-- The scalar members of `Optimizer<T>` set by `getParams`, and the two index
sets `state_.idx` and `control_sequence_.idx` set by `setMotionModel`. -/
structure Optimizer (α : Type) where
  model_dt_ : α
  time_steps_ : ℕ
  batch_size_ : ℕ
  iteration_count_ : ℕ
  temperature_ : α
  vx_max_ : α
  vy_max_ : α
  wz_max_ : α
  vx_std_ : α
  vy_std_ : α
  wz_std_ : α
  motion_model_t_ : MotionModel
  state_idx : StateIdxes
  control_sequence_idx : ControlSequenceIdxes

/-- Modelled from the spec: the parameters held by the host node, as read by
`utils::getParamGetter` (`utils/common.hpp`, not among the sources).  A
parameter the host does not set is `none`.  The counts are host integers, which
may be negative: `getParams` passes `int` defaults for them. -/
structure Parameters (α : Type) where
  model_dt : Option α
  time_steps : Option ℤ
  batch_size : Option ℤ
  iteration_count : Option ℤ
  temperature : Option α
  vx_max : Option α
  vy_max : Option α
  wz_max : Option α
  vx_std : Option α
  vy_std : Option α
  wz_std : Option α
  motion_model : Option String

/-- Modelled from the spec: the getter returned by `utils::getParamGetter`.
Every parameter has a default; the value read is the host value when there is
one and the default otherwise, and no bound is enforced. -/
def getParam {β : Type} (value : Option β) (default : β) : β :=
  value.getD default

/-- The conversion of a host integer to the `unsigned int` members
`time_steps_`, `batch_size_` and `iteration_count_` (they are unsigned: the
shape list `{batch_size_, time_steps_, 1U}` of `generateNoisedControls` holds
them next to `1U`): the value modulo `2 ^ 32`. -/
def toUnsigned (v : ℤ) : ℕ :=
  (v % 2 ^ 32).toNat

/-- The method `Optimizer<T>::setMotionModel`. -/
def setMotionModel (motion_model : MotionModel) (o : Optimizer α) : Optimizer α :=
  { o with
    motion_model_t_ := motion_model
    state_idx := StateIdxes.setLayout motion_model
    control_sequence_idx := ControlSequenceIdxes.setLayout motion_model }

/-- The method `Optimizer<T>::getParams`, with the table of motion model names
`nmap` as an argument. -/
def getParams (nmap : String → Option MotionModel) (params : Parameters α)
    (o : Optimizer α) : Optimizer α :=
  let o1 : Optimizer α :=
    { o with
      model_dt_ := getParam params.model_dt (1 / 10)
      time_steps_ := toUnsigned (getParam params.time_steps 15)
      batch_size_ := toUnsigned (getParam params.batch_size 200)
      iteration_count_ := toUnsigned (getParam params.iteration_count 2)
      temperature_ := getParam params.temperature (1 / 4)
      vx_max_ := getParam params.vx_max (1 / 2)
      vy_max_ := getParam params.vy_max (13 / 10)
      wz_max_ := getParam params.wz_max (13 / 10)
      vx_std_ := getParam params.vx_std (1 / 10)
      vy_std_ := getParam params.vy_std (1 / 10)
      wz_std_ := getParam params.wz_std (3 / 10) }
  let name := getParam params.motion_model "diff"
  match nmap name with
  | some motion_model => setMotionModel motion_model o1
  | none => o1

/-- The method `Optimizer<T>::isHolonomic`. -/
def Optimizer.isHolonomic (o : Optimizer α) : Bool :=
  mppi.optimization.isHolonomic o.motion_model_t_

/-- Number of control columns under the optimizer's motion model. -/
abbrev Optimizer.cdim (o : Optimizer α) : ℕ :=
  controlDim o.motion_model_t_

/-! ## The state tensor -/

/-- Modelled from the spec: the state tensor `State<T>` of `State.hpp` (not
among the sources), of shape `[B, H, dim]`.  Its named column blocks, which
are disjoint views of the backing storage, are held as separate tensors: the
control columns `getControls()`, the velocity columns (the range
`idx.vbegin() .. idx.vend()`) and the time delta `getTimeIntervals()`. -/
structure State (α : Type) (B H C : ℕ) where
  controls : Fin B → Fin H → Fin C → α
  velocities : Fin B → Fin H → Fin C → α
  time_intervals : Fin B → Fin H → α

/-- One row `[b, t, :]` of the state tensor. -/
structure StateRow (α : Type) (C : ℕ) where
  controls : Fin C → α
  velocities : Fin C → α
  time_interval : α

/-- The view `xt::view(state.data, xt::all(), i)`: row `i` of every batch entry. -/
def State.row {B H C : ℕ} (s : State α B H C) (i : Fin H) : Fin B → StateRow α C :=
  fun b => { controls := s.controls b i, velocities := s.velocities b i,
             time_interval := s.time_intervals b i }

/-- Modelled from the spec: `State<T>::reset(batch_size, time_steps)` sets all
entries to 0. -/
def State.reset (B H C : ℕ) : State α B H C :=
  { controls := fun _ _ _ => 0, velocities := fun _ _ _ => 0, time_intervals := fun _ _ => 0 }

/-- The tensor members of `Optimizer<T>` that `reset` shapes: `state_` and
`control_sequence_.data`. -/
structure Tensors (α : Type) (B H C : ℕ) where
  state_ : State α B H C
  control_sequence_ : Fin H → Fin C → α

/-- The method `Optimizer<T>::reset`. -/
def reset (o : Optimizer α) : Tensors α o.batch_size_ o.time_steps_ o.cdim :=
  let state0 : State α o.batch_size_ o.time_steps_ o.cdim := State.reset _ _ _
  { state_ := { state0 with time_intervals := fun _ _ => o.model_dt_ }
    control_sequence_ := fun _ _ => 0 }

/-- The result of a successful `on_configure`: the parameters read and the
tensors shaped from them. -/
structure Configured (α : Type) where
  optimizer : Optimizer α
  tensors : Tensors α optimizer.batch_size_ optimizer.time_steps_ optimizer.cdim

/-- Modelled from the spec: the configuration error.  The only component
configured by `on_configure` that the specification lets report one is the
critic scorer, "when a named critic is not known". -/
inductive ConfigurationError where
  | unknownCritic
  deriving DecidableEq, Repr

/-- The method `Optimizer<T>::on_configure`: `getParams()`, then
`configureComponents()`, then `reset()`.  The handles it stores (`parent_`,
`costmap_ros_`, `model_`) are outside the model.  `CriticScorer.hpp` is not
among the sources: the outcome `critic_scorer` of
`critic_scorer_.on_configure(parent_, component_name, costmap_ros_)`, in which
no parameter of the optimizer takes part, is an argument, and an error it
reports is the error of `on_configure`. -/
def on_configure (nmap : String → Option MotionModel)
    (critic_scorer : Except ConfigurationError Unit) (params : Parameters α)
    (o : Optimizer α) : Except ConfigurationError (Configured α) :=
  let o1 := getParams nmap params o
  match critic_scorer with
  | Except.error e => Except.error e
  | Except.ok _ => Except.ok { optimizer := o1, tensors := reset o1 }

/-! ## Rollout: sampling, constraints, velocities, integration -/

/-- The draws of `xt::random::randn` made by one call of
`generateNoisedControls`, each of shape `[B, H, 1]`.  The draw `vy_noises` is
made, and read, for a holonomic model only. -/
structure Noises (α : Type) (B H : ℕ) where
  vx_noises : Fin B → Fin H → α
  vy_noises : Fin B → Fin H → α
  wz_noises : Fin B → Fin H → α

/-- The tensor `xt::concatenate(xt::xtuple(vx_noises, wz_noises), 2)`, or
`xt::concatenate(xt::xtuple(vx_noises, vy_noises, wz_noises), 2)` when
holonomic. -/
def concatenateNoises {B H : ℕ} (o : Optimizer α) (n : Noises α B H) :
    Fin B → Fin H → Fin o.cdim → α :=
  fun b t c =>
    if o.isHolonomic = true then
      (if c.val = 0 then n.vx_noises b t else if c.val = 1 then n.vy_noises b t
       else n.wz_noises b t)
    else
      (if c.val = 0 then n.vx_noises b t else n.wz_noises b t)

/-- The method `Optimizer<T>::generateNoisedControls`: the nominal sequence,
broadcast over the batch, plus the noise. -/
def generateNoisedControls {B H : ℕ} (o : Optimizer α)
    (control_sequence_ : Fin H → Fin o.cdim → α) (n : Noises α B H) :
    Fin B → Fin H → Fin o.cdim → α :=
  fun b t c => control_sequence_ t c + concatenateNoises o n b t c

/-- The assignment `col = xt::clip(col, lo, hi)` through a view of one column. -/
def clipColumn {B H C : ℕ} (controls : Fin B → Fin H → Fin C → α) (col : Fin C)
    (lo hi : α) : Fin B → Fin H → Fin C → α :=
  fun b t c => if c = col then clip (controls b t c) lo hi else controls b t c

/-- The method `Optimizer<T>::applyControlConstraints`, on the control columns
of `state_`. -/
def applyControlConstraints {B H : ℕ} (o : Optimizer α)
    (controls : Fin B → Fin H → Fin o.cdim → α) : Fin B → Fin H → Fin o.cdim → α :=
  let controls1 :=
    if h : isHolonomic o.motion_model_t_ = true then
      clipColumn controls (idxVY o.motion_model_t_ h) (-o.vy_max_) o.vy_max_
    else controls
  let controls2 := clipColumn controls1 (idxVX o.motion_model_t_) (-o.vx_max_) o.vx_max_
  clipColumn controls2 (idxWZ o.motion_model_t_) (-o.wz_max_) o.wz_max_

/-- The limit of a control column in the words of the specification: `vx_max`
for `vx`, `wz_max` for `wz`, and `vy_max` for the column `vy` of a holonomic
model. -/
def controlLimit (o : Optimizer α) (c : Fin o.cdim) : α :=
  if c = idxVX o.motion_model_t_ then o.vx_max_
  else if c = idxWZ o.motion_model_t_ then o.wz_max_
  else o.vy_max_

/-- The assignment `xt::view(column, xt::all(), 0) = value` through the view of
one velocity column. -/
def setInitialVelocity {B H C : ℕ} (velocities : Fin B → Fin H → Fin C → α) (col : Fin C)
    (value : α) : Fin B → Fin H → Fin C → α :=
  fun b t c => if t.val = 0 ∧ c = col then value else velocities b t c

/-- The method `Optimizer<T>::updateInitialStateVelocities`; row 0 exists, the
state has `H ≥ 1` rows. -/
def updateInitialStateVelocities {B H : ℕ} [NeZero H] (o : Optimizer α) (state : State α B H o.cdim)
    (robot_speed : Twist α) : State α B H o.cdim :=
  let v1 := setInitialVelocity state.velocities (idxVX o.motion_model_t_) robot_speed.linear_x
  let v2 := setInitialVelocity v1 (idxWZ o.motion_model_t_) robot_speed.angular_z
  let v3 :=
    if h : isHolonomic o.motion_model_t_ = true then
      setInitialVelocity v2 (idxVY o.motion_model_t_ h) robot_speed.linear_y
    else v2
  { state with velocities := v3 }

/-- The type of the member `model_`: from row `i` of every batch entry to the
velocity columns of row `i + 1`. -/
abbrev Model (α : Type) (B C : ℕ) : Type :=
  (Fin B → StateRow α C) → Fin B → Fin C → α

/-- One pass of the loop body of `propagateStateVelocitiesFromInitials`, for the
loop index `i`: `next_velocities = model_(curr_state, state.idx)`. -/
def propagateStep {B H C : ℕ} (model : Model α B C) (i : ℕ) (state : State α B H C) :
    State α B H C :=
  if h : i < H then
    let curr_state := state.row ⟨i, h⟩
    let next := model curr_state
    { state with
      velocities := fun b t c => if t.val = i + 1 then next b c else state.velocities b t c }
  else state

/-- The method `Optimizer<T>::propagateStateVelocitiesFromInitials`: the loop
`for (i = 0; i < time_steps_ - 1; i++)` on a state of `H = time_steps_ ≥ 1`
rows. -/
def propagateStateVelocitiesFromInitials {B H C : ℕ} [NeZero H] (model : Model α B C)
    (state : State α B H C) : State α B H C :=
  (List.range (H - 1)).foldl (fun s i => propagateStep model i s) state

/-- The method `Optimizer<T>::updateStateVelocities`. -/
def updateStateVelocities {B H : ℕ} [NeZero H] (o : Optimizer α) (model : Model α B o.cdim)
    (state : State α B H o.cdim) (robot_speed : Twist α) : State α B H o.cdim :=
  propagateStateVelocitiesFromInitials model (updateInitialStateVelocities o state robot_speed)

/-- The function `xt::cumsum(e, 1)`: running sums along the time axis. -/
def cumsum {B H : ℕ} (e : Fin B → Fin H → α) : Fin B → Fin H → α :=
  fun b t => ∑ k ∈ Finset.univ.filter (fun k : Fin H => k ≤ t), e b k

/-- The local `yaw` of `integrateStateVelocities`:
`xt::cumsum(w * model_dt_, 1) + initial_yaw`. -/
def integratedYaw {B H : ℕ} (o : Optimizer α) (state : State α B H o.cdim)
    (pose : PoseStamped α) : Fin B → Fin H → α :=
  let w : Fin B → Fin H → α := fun b t => state.velocities b t (idxWZ o.motion_model_t_)
  let initial_yaw := pose.yaw
  fun b t => cumsum (fun b t => w b t * o.model_dt_) b t + initial_yaw

/-- The local `yaw_offseted` of `integrateStateVelocities`: `yaw` shifted by one
step along the time axis, with `initial_yaw` in column 0. -/
def yaw_offseted {B H : ℕ} (o : Optimizer α) (state : State α B H o.cdim)
    (pose : PoseStamped α) : Fin B → Fin H → α :=
  fun b t =>
    if h : t.val = 0 then pose.yaw
    else integratedYaw o state pose b ⟨t.val - 1, by omega⟩

/-- The method `Optimizer<T>::integrateStateVelocities`; the last axis of the
result holds `x`, `y`, `yaw`. -/
def integrateStateVelocities {B H : ℕ} (cos sin : α → α) (o : Optimizer α)
    (state : State α B H o.cdim) (pose : PoseStamped α) : Fin B → Fin H → Fin 3 → α :=
  let yaw := integratedYaw o state pose
  let yaw_cos : Fin B → Fin H → α := fun b t => cos (yaw_offseted o state pose b t)
  let yaw_sin : Fin B → Fin H → α := fun b t => sin (yaw_offseted o state pose b t)
  let vx : Fin B → Fin H → α := fun b t => state.velocities b t (idxVX o.motion_model_t_)
  let dx0 : Fin B → Fin H → α := fun b t => vx b t * yaw_cos b t
  let dy0 : Fin B → Fin H → α := fun b t => vx b t * yaw_sin b t
  let dx : Fin B → Fin H → α :=
    if h : isHolonomic o.motion_model_t_ = true then
      fun b t => dx0 b t - state.velocities b t (idxVY o.motion_model_t_ h) * yaw_sin b t
    else dx0
  let dy : Fin B → Fin H → α :=
    if h : isHolonomic o.motion_model_t_ = true then
      fun b t => dy0 b t + state.velocities b t (idxVY o.motion_model_t_ h) * yaw_cos b t
    else dy0
  let x : Fin B → Fin H → α := fun b t => pose.x + cumsum (fun b t => dx b t * o.model_dt_) b t
  let y : Fin B → Fin H → α := fun b t => pose.y + cumsum (fun b t => dy b t * o.model_dt_) b t
  fun b t c => if c.val = 0 then x b t else if c.val = 1 then y b t else yaw b t

/-- The method `Optimizer<T>::generateNoisedTrajectories`: the new `state_` and
the trajectories returned. -/
def generateNoisedTrajectories {B H : ℕ} [NeZero H] (cos sin : α → α) (o : Optimizer α)
    (model : Model α B o.cdim) (n : Noises α B H) (ts : Tensors α B H o.cdim)
    (robot_pose : PoseStamped α) (robot_speed : Twist α) :
    State α B H o.cdim × (Fin B → Fin H → Fin 3 → α) :=
  let state1 : State α B H o.cdim :=
    { ts.state_ with controls := generateNoisedControls o ts.control_sequence_ n }
  let state2 : State α B H o.cdim :=
    { state1 with controls := applyControlConstraints o state1.controls }
  let state3 := updateStateVelocities o model state2 robot_speed
  (state3, integrateStateVelocities cos sin o state3 robot_pose)

/-! ## The goal critic -/

/-- The index `-1` of an `xt::view` along a non-empty axis: the last entry. -/
def lastIdx (n : ℕ) [NeZero n] : Fin n :=
  ⟨n - 1, Nat.sub_lt (NeZero.pos n) Nat.one_pos⟩

/-- The members of `GoalCritic<T>` read by `getParams`. -/
structure GoalCritic (α : Type) where
  power_ : ℕ
  weight_ : α

/-- The method `GoalCritic<T>::score`: the new value of `costs`.  The path is a
rank-2 tensor of `P ≥ 1` rows and at least two columns, the trajectories have
`H ≥ 1` steps; `sqrt` is the square root taken by `xt::norm_l2`. -/
def GoalCritic.score {B H P D : ℕ} [NeZero H] [NeZero P] (sqrt : α → α) (critic : GoalCritic α)
    (_robot_pose : PoseStamped α) (trajectories : Fin B → Fin H → Fin 3 → α)
    (path : Fin P → Fin (D + 2) → α) (costs : Fin B → α) : Fin B → α :=
  let goal_points : Fin 2 → α := fun c => path (lastIdx P) (Fin.castLE (by omega) c)
  let trajectories_end : Fin B → Fin 2 → α :=
    fun b c => trajectories b (lastIdx H) (Fin.castLE (by omega) c)
  let dists_trajectories_end_to_goal : Fin B → α :=
    fun b => sqrt (∑ c, (trajectories_end b c - goal_points c) ^ 2)
  fun b => costs b + (dists_trajectories_end_to_goal b * critic.weight_) ^ critic.power_

/-! ## The control loop -/

/-- The tensor members of `Optimizer<T>` during `evalControl`: `state_`,
`control_sequence_.data` and `generated_trajectories_` (`none` until the first
rollout assigns it). -/
structure Members (α : Type) (B H C : ℕ) where
  tensors : Tensors α B H C
  generated_trajectories_ : Option (Fin B → Fin H → Fin 3 → α)

/-- The shape of an `xtensor` expression, outermost axis first. -/
abbrev Shape : Type := List ℕ

/-- Broadcasting of two shapes, both read from the last axis: two lengths go
together when they are equal or one of them is 1. -/
def broadcastRev : List ℕ → List ℕ → Option (List ℕ)
  | [], ys => some ys
  | x :: xs, [] => some (x :: xs)
  | x :: xs, y :: ys =>
    if x = y then (broadcastRev xs ys).map (fun s => x :: s)
    else if y = 1 then (broadcastRev xs ys).map (fun s => x :: s)
    else if x = 1 then (broadcastRev xs ys).map (fun s => y :: s)
    else none

/-- The shape of an elementwise operation on two operands. -/
def Shape.broadcast (s1 s2 : Shape) : Option Shape :=
  (broadcastRev s1.reverse s2.reverse).map List.reverse

/-- The assignment `view = e` through a view: `e` has to broadcast to the shape
of the view, which is kept. -/
def Shape.assign (view e : Shape) : Option Shape :=
  (Shape.broadcast view e).bind fun s => if s = view then some view else none

/-- The view `xt::view(e, xt::all(), ..., i)` with the integer index `i` at
position `axis`: the index has to lie within the axis, which is removed. -/
def Shape.index (s : Shape) (axis i : ℕ) : Option Shape :=
  match s.get? axis with
  | some d => if i < d then some (s.eraseIdx axis) else none
  | none => none

/-- The view `xt::view(e, xt::all(), ..., xt::range(lo, hi))` at position
`axis`: the range has to lie within the axis, which keeps `hi - lo` entries. -/
def Shape.range (s : Shape) (axis lo hi : ℕ) : Option Shape :=
  match s.get? axis with
  | some d => if lo ≤ hi ∧ hi ≤ d then some (s.set axis (hi - lo)) else none
  | none => none

/-- The view `xt::view(e, xt::all(), xt::all(), xt::newaxis())` of a rank-2
expression. -/
def Shape.newaxis (s : Shape) : Shape :=
  s ++ [1]

/-- The shape of `xt::concatenate(xt::xtuple(a, b), axis)`: the operands agree
on every other axis and their lengths along `axis` add up. -/
def Shape.concatenate2 (a b : Shape) (axis : ℕ) : Option Shape :=
  match a.get? axis, b.get? axis with
  | some d, some e => if a.eraseIdx axis = b.eraseIdx axis then some (a.set axis (d + e)) else none
  | _, _ => none

/-- The shape of `xt::concatenate(xt::xtuple(a, b, c), axis)`. -/
def Shape.concatenate3 (a b c : Shape) (axis : ℕ) : Option Shape :=
  (Shape.concatenate2 a b axis).bind fun ab => Shape.concatenate2 ab c axis

/-- The shapes `reset` gives `state_.data` and `control_sequence_.data`:
`[batch_size_, time_steps_, dim]` and `[time_steps_, dim]`, with the number of
columns of their index sets. -/
def resetShapes (o : Optimizer α) : Shape × Shape :=
  ([o.batch_size_, o.time_steps_, o.state_idx.dim], [o.time_steps_, o.control_sequence_idx.dim])

/-- The shape of the tensor returned by `generateNoisedControls`, from the shape
of `control_sequence_.data`. -/
def generateNoisedControlsShape (o : Optimizer α) (control_sequence : Shape) : Option Shape :=
  let noises : Shape := [o.batch_size_, o.time_steps_, 1]
  let concatenated :=
    if o.isHolonomic = true then Shape.concatenate3 noises noises noises 2
    else Shape.concatenate2 noises noises 2
  concatenated.bind fun n => Shape.broadcast control_sequence n

/-- The view of one column of the state: `xt::view(data, xt::all(), xt::all(), c)`. -/
def columnShape (data : Shape) (c : ℕ) : Option Shape :=
  Shape.index data 2 c

/-- The shapes met by `applyControlConstraints`: each clipped column is assigned
to its own view.  The result is the shape of `state_.data`. -/
def applyControlConstraintsShape (o : Optimizer α) (data : Shape) : Option Shape :=
  (columnShape data o.state_idx.cvx).bind fun vx =>
  (columnShape data o.state_idx.cwz).bind fun wz =>
  (if o.isHolonomic = true then
      match o.state_idx.cvy with
      | some c => (columnShape data c).bind fun vy => Shape.assign vy vy
      | none => none
    else some []).bind fun _ =>
  (Shape.assign vx vx).bind fun _ =>
  (Shape.assign wz wz).bind fun _ => some data

/-- The shapes met by `updateInitialStateVelocities`: the views
`xt::view(column, xt::all(), 0)` of row 0 of the velocity columns. -/
def updateInitialStateVelocitiesShape (o : Optimizer α) (data : Shape) : Option Shape :=
  (columnShape data o.state_idx.vx).bind fun vx =>
  (Shape.index vx 1 0).bind fun _ =>
  (columnShape data o.state_idx.wz).bind fun wz =>
  (Shape.index wz 1 0).bind fun _ =>
  (if o.isHolonomic = true then
      match o.state_idx.vy with
      | some c => (columnShape data c).bind fun vy => Shape.index vy 1 0
      | none => none
    else some []).bind fun _ => some data

/-- The shapes met by one pass of the loop of
`propagateStateVelocitiesFromInitials` at the loop index `i`: the views of rows
`i` and `i + 1`, and the assignment of the step function's result, whose shape
is `model_shape` of the shape of the row. -/
def propagateStepShape (o : Optimizer α) (model_shape : Shape → Shape) (data : Shape) (i : ℕ) :
    Option Shape :=
  (Shape.index data 1 i).bind fun curr_state =>
  (Shape.index data 1 (i + 1)).bind fun next_row =>
  (Shape.range next_row 1 o.state_idx.vx (o.state_idx.wz + 1)).bind fun next_velocities =>
  (Shape.assign next_velocities (model_shape curr_state)).bind fun _ => some data

/-- The passes `i, i + 1, ...` of the loop of
`propagateStateVelocitiesFromInitials`, `remaining` of them. -/
def propagateLoopShape (o : Optimizer α) (model_shape : Shape → Shape) (data : Shape) :
    (remaining : ℕ) → (i : ℕ) → Option Shape
  | 0, _ => some data
  | k + 1, i =>
    (propagateStepShape o model_shape data i).bind fun _ =>
      propagateLoopShape o model_shape data k (i + 1)

/-- The shapes met by `propagateStateVelocitiesFromInitials`.  The bound
`time_steps_ - 1` of the loop is evaluated in `unsigned int`: it is
`2 ^ 32 - 1` when `time_steps_` is 0. -/
def propagateStateVelocitiesFromInitialsShape (o : Optimizer α) (model_shape : Shape → Shape)
    (data : Shape) : Option Shape :=
  propagateLoopShape o model_shape data ((o.time_steps_ + 2 ^ 32 - 1) % 2 ^ 32) 0

/-- The shape of the tensor returned by `integrateStateVelocities`, from the
shape of `state.data`. -/
def integrateStateVelocitiesShape (o : Optimizer α) (data : Shape) : Option Shape :=
  (columnShape data o.state_idx.wz).bind fun w =>
  let yaw := w
  let yaw_offseted := yaw
  (yaw.get? 1).bind fun steps =>
  (Shape.range yaw_offseted 1 1 steps).bind fun shifted =>
  (Shape.range yaw 1 0 (steps - 1)).bind fun source =>
  (Shape.assign shifted source).bind fun _ =>
  (Shape.index yaw_offseted 1 0).bind fun _ =>
  let yaw_cos := yaw_offseted
  let yaw_sin := yaw_offseted
  (columnShape data o.state_idx.vx).bind fun vx =>
  (Shape.broadcast vx yaw_cos).bind fun dx0 =>
  (Shape.broadcast vx yaw_sin).bind fun dy0 =>
  (if o.isHolonomic = true then
      match o.state_idx.vy with
      | some c =>
        (columnShape data c).bind fun vy =>
        (Shape.broadcast vy yaw_sin).bind fun s =>
        (Shape.broadcast vy yaw_cos).bind fun c =>
        (Shape.broadcast dx0 s).bind fun dx =>
        (Shape.broadcast dy0 c).bind fun dy => some (dx, dy)
      | none => none
    else some (dx0, dy0)).bind fun d =>
  let x := d.1
  let y := d.2
  Shape.concatenate3 (Shape.newaxis x) (Shape.newaxis y) (Shape.newaxis yaw) 2

/-- The shape of the tensor returned by `generateNoisedTrajectories`, from the
shapes of `state_.data` and `control_sequence_.data`. -/
def generateNoisedTrajectoriesShape (o : Optimizer α) (model_shape : Shape → Shape)
    (data control_sequence : Shape) : Option Shape :=
  (Shape.range data 2 o.state_idx.cvx (o.state_idx.cwz + 1)).bind fun controls =>
  (generateNoisedControlsShape o control_sequence).bind fun noised =>
  (Shape.assign controls noised).bind fun _ =>
  (applyControlConstraintsShape o data).bind fun _ =>
  (updateInitialStateVelocitiesShape o data).bind fun _ =>
  (propagateStateVelocitiesFromInitialsShape o model_shape data).bind fun _ =>
  integrateStateVelocitiesShape o data

/-- Modelled from the spec: the shape of the result of the step function of
`MotionModel.hpp` (not among the sources): one row of velocity columns per
batch entry, as many columns as the motion model has controls. -/
def stepShape (o : Optimizer α) (curr_state : Shape) : Shape :=
  [curr_state.headD 0, o.control_sequence_idx.dim]

/-! ## Sample inputs -/

/-- An optimizer over one batch entry and one step, with the default limits and
deviations of `getParams`, for a given motion model, model step, temperature
and iteration count. -/
def sampleOptimizer (m : MotionModel) (model_dt temperature : α) (iteration_count : ℕ) :
    Optimizer α :=
  { model_dt_ := model_dt
    time_steps_ := 1
    batch_size_ := 1
    iteration_count_ := iteration_count
    temperature_ := temperature
    vx_max_ := 1 / 2
    vy_max_ := 13 / 10
    wz_max_ := 13 / 10
    vx_std_ := 1 / 10
    vy_std_ := 1 / 10
    wz_std_ := 3 / 10
    motion_model_t_ := m
    state_idx := StateIdxes.setLayout m
    control_sequence_idx := ControlSequenceIdxes.setLayout m }

/-- A state whose velocity columns hold `vx = v` and 0 elsewhere in every row. -/
def constantVelocityState {B H : ℕ} (o : Optimizer α) (v : α) : State α B H o.cdim :=
  { controls := fun _ _ _ => 0
    velocities := fun _ _ c => if c = idxVX o.motion_model_t_ then v else 0
    time_intervals := fun _ _ => o.model_dt_ }

/-- Modelled from the spec: the step function of the Differential and
Omnidirectional models of `MotionModel.hpp` (not among the sources): the next
velocity equals the commanded velocity of the current row. -/
def commandedVelocityModel {B C : ℕ} : Model α B C :=
  fun curr_state b c => (curr_state b).controls c

/-- A noise tensor with the same value in every entry. -/
def constantNoises {B H : ℕ} (vx vy wz : α) : Noises α B H :=
  { vx_noises := fun _ _ => vx, vy_noises := fun _ _ => vy, wz_noises := fun _ _ => wz }

/-- A batch of one trajectory of two steps: every entry of step 0 is `first`,
step 1 is at `(3, 4)` with the given yaw. -/
def sampleTrajectories (yaw first : α) : Fin 1 → Fin 2 → Fin 3 → α :=
  fun _ t c =>
    if t.val = 1 then (if c.val = 0 then 3 else if c.val = 1 then 4 else yaw) else first

/-- A path of two points with three columns: every entry of point 0 is `first`,
point 1 is the origin. -/
def samplePath (first : α) : Fin 2 → Fin (1 + 2) → α :=
  fun i _ => if i.val = 1 then 0 else first

/-- The members as `reset` leaves them, at a given shape, before any rollout. -/
def sampleMembers {B H : ℕ} (o : Optimizer α) : Members α B H o.cdim :=
  { tensors :=
      { state_ :=
          { controls := fun _ _ _ => 0
            velocities := fun _ _ _ => 0
            time_intervals := fun _ _ => o.model_dt_ }
        control_sequence_ := fun _ _ => 0 }
    generated_trajectories_ := none }

/-- Host parameters that set `model_dt`, `time_steps`, `batch_size` and
`temperature` and leave every other parameter to its default. -/
def sampleParameters (model_dt temperature : α) (time_steps batch_size : ℤ) : Parameters α :=
  { model_dt := some model_dt
    time_steps := some time_steps
    batch_size := some batch_size
    iteration_count := none
    temperature := some temperature
    vx_max := none
    vy_max := none
    wz_max := none
    vx_std := none
    vy_std := none
    wz_std := none
    motion_model := none }

/-- Host parameters that set the motion model name only. -/
def motionModelParameters (name : String) : Parameters α :=
  { model_dt := none
    time_steps := none
    batch_size := none
    iteration_count := none
    temperature := none
    vx_max := none
    vy_max := none
    wz_max := none
    vx_std := none
    vy_std := none
    wz_std := none
    motion_model := some name }

/-- The largest finite value of IEEE binary64 (`double`). -/
def DBL_MAX : α :=
  2 ^ 1024 - 2 ^ 971

/-- An optimizer configured for the batch size `B` and `H` time steps, with the
defaults of `getParams` elsewhere and the layouts of its motion model. -/
def shapedOptimizer (m : MotionModel) (B H : ℕ) : Optimizer α :=
  { model_dt_ := 1 / 10
    time_steps_ := H
    batch_size_ := B
    iteration_count_ := 2
    temperature_ := 1 / 4
    vx_max_ := 1 / 2
    vy_max_ := 13 / 10
    wz_max_ := 13 / 10
    vx_std_ := 1 / 10
    vy_std_ := 1 / 10
    wz_std_ := 3 / 10
    motion_model_t_ := m
    state_idx := StateIdxes.setLayout m
    control_sequence_idx := ControlSequenceIdxes.setLayout m }

/-! ## The specification's formulas -/

/-- In the words of the specification: the yaw at the start of step `t`,
`theta[b,0] = initial_yaw` and `theta[b,t] = initial_yaw + dt * (wz[b,0] + ... + wz[b,t-1])`. -/
def specStartYaw {B H : ℕ} (o : Optimizer α) (state : State α B H o.cdim)
    (pose : PoseStamped α) : Fin B → Fin H → α :=
  fun b t => pose.yaw + o.model_dt_ *
    ∑ k ∈ Finset.univ.filter (fun k : Fin H => k < t), state.velocities b k (idxWZ o.motion_model_t_)

/-- In the words of the specification: the yaw after step `t`,
`yaw[b,t] = initial_yaw + dt * (wz[b,0] + ... + wz[b,t])`. -/
def specYaw {B H : ℕ} (o : Optimizer α) (state : State α B H o.cdim)
    (pose : PoseStamped α) : Fin B → Fin H → α :=
  fun b t => pose.yaw + o.model_dt_ *
    ∑ k ∈ Finset.univ.filter (fun k : Fin H => k ≤ t), state.velocities b k (idxWZ o.motion_model_t_)

/-- The lateral velocity `vy[b,k]` of the specification's formulas: the `vy`
velocity column of a holonomic model, and 0 (the term is absent) otherwise. -/
def specVY {B H : ℕ} (o : Optimizer α) (state : State α B H o.cdim) : Fin B → Fin H → α :=
  fun b k =>
    if h : isHolonomic o.motion_model_t_ = true then
      state.velocities b k (idxVY o.motion_model_t_ h)
    else 0

/-- In the words of the specification:
`x[b,t] = x0 + dt * sum over k ≤ t of (vx[b,k] * cos(theta[b,k]) - vy[b,k] * sin(theta[b,k]))`. -/
def specX {B H : ℕ} (cos sin : α → α) (o : Optimizer α) (state : State α B H o.cdim)
    (pose : PoseStamped α) : Fin B → Fin H → α :=
  fun b t => pose.x + o.model_dt_ *
    ∑ k ∈ Finset.univ.filter (fun k : Fin H => k ≤ t),
      (state.velocities b k (idxVX o.motion_model_t_) * cos (specStartYaw o state pose b k) -
        specVY o state b k * sin (specStartYaw o state pose b k))

/-- In the words of the specification:
`y[b,t] = y0 + dt * sum over k ≤ t of (vx[b,k] * sin(theta[b,k]) + vy[b,k] * cos(theta[b,k]))`. -/
def specY {B H : ℕ} (cos sin : α → α) (o : Optimizer α) (state : State α B H o.cdim)
    (pose : PoseStamped α) : Fin B → Fin H → α :=
  fun b t => pose.y + o.model_dt_ *
    ∑ k ∈ Finset.univ.filter (fun k : Fin H => k ≤ t),
      (state.velocities b k (idxVX o.motion_model_t_) * sin (specStartYaw o state pose b k) +
        specVY o state b k * cos (specStartYaw o state pose b k))

/-- The temperature and costs at which every value computed by
`updateControlSequence` is finite: the scale `-1 / temperature_`, each
exponential and the sum of the exponentials. -/
def updateFinite {B : ℕ} [NeZero B] (fmax : Option α) (exp : α → α) (temperature : α)
    (costs : Fin B → α) : Prop :=
  temperature ≠ 0 ∧ isFinite fmax (-1 / temperature) = true ∧
    (∀ b, isFinite fmax (exp (-1 / temperature * costs_normalized costs b)) = true) ∧
    isFinite fmax (∑ b, exp (-1 / temperature * costs_normalized costs b)) = true

/-! ## Helper lemmas -/

theorem isFinite_none {α : Type} [LinearOrderedField α] (x : α) :
    isFinite (none : Option α) x = true :=
  rfl

theorem isFinite_some_iff {α : Type} [LinearOrderedField α] (m x : α) :
    isFinite (some m) x = true ↔ |x| ≤ m := by
  simp [isFinite]

/-- A value no larger in absolute value than a finite value is finite. -/
theorem isFinite_of_abs_le {α : Type} [LinearOrderedField α] {fmax : Option α} {x y : α}
    (h : |x| ≤ |y|) (hy : isFinite fmax y = true) : isFinite fmax x = true := by
  cases fmax with
  | none => rfl
  | some m => exact (isFinite_some_iff m x).mpr (h.trans ((isFinite_some_iff m y).mp hy))

theorem fdiv_of_finite {α : Type} [LinearOrderedField α] (fmax : Option α) (x : α) {y : α}
    (hy : y ≠ 0) (h : isFinite fmax (x / y) = true) : fdiv fmax x y = some (x / y) := by
  simp [fdiv, hy, h]

theorem fdiv_zero {α : Type} [LinearOrderedField α] (fmax : Option α) (x : α) :
    fdiv fmax x (0 : α) = none := by
  simp [fdiv]

theorem fdiv_of_not_finite {α : Type} [LinearOrderedField α] (fmax : Option α) (x y : α)
    (h : isFinite fmax (x / y) ≠ true) : fdiv fmax x y = none := by
  simp [fdiv, h]

theorem amin_le {α : Type} [LinearOrderedField α] {B : ℕ} [NeZero B] (costs : Fin B → α)
    (b : Fin B) : amin costs ≤ costs b :=
  Finset.inf'_le _ (Finset.mem_univ b)

theorem le_amax {α : Type} [LinearOrderedField α] {B : ℕ} [NeZero B] (costs : Fin B → α)
    (b : Fin B) : costs b ≤ amax costs :=
  Finset.le_sup' _ (Finset.mem_univ b)

theorem exists_eq_amin {α : Type} [LinearOrderedField α] {B : ℕ} [NeZero B]
    (costs : Fin B → α) : ∃ b, amin costs = costs b := by
  obtain ⟨b, -, hb⟩ := Finset.exists_mem_eq_inf' ⟨0, Finset.mem_univ _⟩ costs
  exact ⟨b, hb⟩

/-- At temperature zero the scale `-1 / temperature_` has no finite value, and
neither have the weights. -/
theorem softmaxes_zero_temperature {α : Type} [LinearOrderedField α] {B : ℕ} [NeZero B]
    (fmax : Option α) (exp : α → α) (costs : Fin B → α) : softmaxes fmax exp 0 costs = none := by
  simp [softmaxes, exponents, fdiv]

/-- The sum of the exponentials is positive. -/
theorem sum_exponents_pos {B : ℕ} [NeZero B] (K : Fin B → ℝ) (k : ℝ) :
    0 < ∑ j, Real.exp (k * costs_normalized K j) :=
  Finset.sum_pos (fun _ _ => Real.exp_pos _) ⟨0, Finset.mem_univ _⟩

/-- Closed form of the weights where every value of the update is finite. -/
theorem softmaxes_eq {B : ℕ} [NeZero B] (fmax : Option ℝ) (K : Fin B → ℝ) {temperature : ℝ}
    (hfin : updateFinite fmax Real.exp temperature K) :
    softmaxes fmax Real.exp temperature K =
      some (fun b => Real.exp (-1 / temperature * costs_normalized K b) /
        ∑ j, Real.exp (-1 / temperature * costs_normalized K j)) := by
  obtain ⟨hT, h1, h2, h3⟩ := hfin
  have hpos := sum_exponents_pos K (-1 / temperature)
  simp [softmaxes, exponents, fdiv, hT, h1, h2, h3, hpos.ne']

/-- The weights have no finite value where some value of the update is not
finite. -/
theorem softmaxes_eq_none {B : ℕ} [NeZero B] (fmax : Option ℝ) (K : Fin B → ℝ)
    {temperature : ℝ} (hfin : ¬ updateFinite fmax Real.exp temperature K) :
    softmaxes fmax Real.exp temperature K = none := by
  unfold updateFinite at hfin
  by_cases hT : temperature = 0
  · rw [hT]
    exact softmaxes_zero_temperature fmax Real.exp K
  by_cases h1 : isFinite fmax (-1 / temperature) = true
  · by_cases h2 : ∀ b, isFinite fmax
        (Real.exp (-1 / temperature * costs_normalized K b)) = true
    · have h3 : ¬ isFinite fmax
          (∑ b, Real.exp (-1 / temperature * costs_normalized K b)) = true :=
        fun h3 => hfin ⟨hT, h1, h2, h3⟩
      simp [softmaxes, exponents, fdiv, hT, h1, h2, h3]
    · simp [softmaxes, exponents, fdiv, hT, h1, h2]
  · simp [softmaxes, exponents, fdiv, hT, h1]

/-- Weights are computed only where every value of the update is finite, and
are then given by the closed form. -/
theorem updateFinite_of_softmaxes {B : ℕ} [NeZero B] (fmax : Option ℝ) (K : Fin B → ℝ)
    {temperature : ℝ} {w : Fin B → ℝ} (h : softmaxes fmax Real.exp temperature K = some w) :
    updateFinite fmax Real.exp temperature K := by
  by_contra hfin
  rw [softmaxes_eq_none fmax K hfin] at h
  exact Option.noConfusion h

/-- Closed form of the update where every value of it is finite. -/
theorem updateControlSequence_eq {B H C : ℕ} [NeZero B] (fmax : Option ℝ)
    (controls : Fin B → Fin H → Fin C → ℝ) (K : Fin B → ℝ) {temperature : ℝ}
    (hfin : updateFinite fmax Real.exp temperature K) :
    updateControlSequence fmax Real.exp temperature controls K =
      some (fun t c => ∑ b, controls b t c *
        (Real.exp (-1 / temperature * costs_normalized K b) /
          ∑ j, Real.exp (-1 / temperature * costs_normalized K j))) := by
  simp [updateControlSequence, softmaxes_eq fmax K hfin]

/-- The update has no finite value where some value of it is not finite. -/
theorem updateControlSequence_eq_none {B H C : ℕ} [NeZero B] (fmax : Option ℝ)
    (controls : Fin B → Fin H → Fin C → ℝ) (K : Fin B → ℝ) {temperature : ℝ}
    (hfin : ¬ updateFinite fmax Real.exp temperature K) :
    updateControlSequence fmax Real.exp temperature controls K = none := by
  simp [updateControlSequence, softmaxes_eq_none fmax K hfin]

/-- An update with a finite result has every value finite. -/
theorem updateFinite_of_update {B H C : ℕ} [NeZero B] (fmax : Option ℝ)
    (controls : Fin B → Fin H → Fin C → ℝ) (K : Fin B → ℝ) {temperature : ℝ}
    {U : Fin H → Fin C → ℝ}
    (h : updateControlSequence fmax Real.exp temperature controls K = some U) :
    updateFinite fmax Real.exp temperature K := by
  by_contra hfin
  rw [updateControlSequence_eq_none fmax controls K hfin] at h
  exact Option.noConfusion h

/-- At a positive temperature no exponential exceeds 1. -/
theorem exponent_le_one {B : ℕ} [NeZero B] (K : Fin B → ℝ) {temperature : ℝ}
    (hT : 0 < temperature) (b : Fin B) :
    Real.exp (-1 / temperature * costs_normalized K b) ≤ 1 := by
  have h1 : 0 ≤ costs_normalized K b := sub_nonneg.mpr (amin_le K b)
  have h2 : -1 / temperature ≤ 0 := by
    apply div_nonpos_of_nonpos_of_nonneg <;> linarith
  exact Real.exp_le_one_iff.mpr (mul_nonpos_of_nonpos_of_nonneg h2 h1)

/-- A row of minimum cost has the exponential 1. -/
theorem exponent_eq_one {B : ℕ} [NeZero B] (K : Fin B → ℝ) (temperature : ℝ) {b : Fin B}
    (hb : K b = amin K) : Real.exp (-1 / temperature * costs_normalized K b) = 1 := by
  simp [costs_normalized, hb]

/-- The batch size is at least 1. -/
theorem one_le_batch (B : ℕ) [NeZero B] : (1 : ℝ) ≤ (B : ℝ) := by
  exact_mod_cast Nat.one_le_iff_ne_zero.mpr (NeZero.ne B)

/-- At a positive temperature whose reciprocal is finite, and with a batch size
that is finite in the scalar type, every value of the update is finite. -/
theorem updateFinite_of_pos {B : ℕ} [NeZero B] (fmax : Option ℝ) (K : Fin B → ℝ)
    {temperature : ℝ} (hT : 0 < temperature) (h1 : isFinite fmax (-1 / temperature) = true)
    (hB : isFinite fmax (B : ℝ) = true) : updateFinite fmax Real.exp temperature K := by
  have hB1 := one_le_batch B
  have habsB : |(B : ℝ)| = (B : ℝ) := abs_of_nonneg (by linarith)
  refine ⟨hT.ne', h1, fun b => ?_, ?_⟩
  · apply isFinite_of_abs_le _ hB
    rw [habsB, abs_of_pos (Real.exp_pos _)]
    exact (exponent_le_one K hT b).trans hB1
  · apply isFinite_of_abs_le _ hB
    rw [habsB, abs_of_pos (sum_exponents_pos K _)]
    calc ∑ b, Real.exp (-1 / temperature * costs_normalized K b)
        ≤ ∑ _b : Fin B, (1 : ℝ) := Finset.sum_le_sum fun b _ => exponent_le_one K hT b
      _ = (B : ℝ) := by simp

/-- A convex combination lies between the least and the greatest entry. -/
theorem convex_combination_bounds {B : ℕ} [NeZero B] (x w : Fin B → ℝ) (hw : ∀ b, 0 ≤ w b)
    (hsum : ∑ b, w b = 1) : amin x ≤ ∑ b, x b * w b ∧ ∑ b, x b * w b ≤ amax x := by
  constructor
  · calc amin x = ∑ b, amin x * w b := by rw [← Finset.mul_sum, hsum, mul_one]
      _ ≤ ∑ b, x b * w b :=
        Finset.sum_le_sum fun b _ => mul_le_mul_of_nonneg_right (amin_le x b) (hw b)
  · calc ∑ b, x b * w b ≤ ∑ b, amax x * w b :=
        Finset.sum_le_sum fun b _ => mul_le_mul_of_nonneg_right (le_amax x b) (hw b)
      _ = amax x := by rw [← Finset.mul_sum, hsum, mul_one]

/-- The exponential of 12000 exceeds the largest finite `double`. -/
theorem exp_overflow : (DBL_MAX : ℝ) < Real.exp 12000 := by
  have h2 : (2 : ℝ) ≤ Real.exp 1 := by
    have := Real.exp_one_gt_d9
    linarith
  have h3 : Real.exp 12000 = Real.exp 1 ^ 12000 := by
    rw [← Real.exp_nat_mul]
    norm_num
  have h4 : (2 : ℝ) ^ 12000 ≤ Real.exp 1 ^ 12000 := pow_le_pow_left₀ (by norm_num) h2 _
  have h5 : (2 : ℝ) ^ 1024 ≤ 2 ^ 12000 := pow_le_pow_right₀ (by norm_num) (by norm_num)
  have h6 : (DBL_MAX : ℝ) < 2 ^ 1024 := by
    unfold DBL_MAX
    have : (0 : ℝ) < 2 ^ 971 := by positivity
    linarith
  rw [h3]
  linarith

/-- The costs 0 and 3000 have the minimum 0. -/
theorem amin_sample_costs : amin (![0, 3000] : Fin 2 → ℝ) = 0 := by
  apply le_antisymm
  · exact amin_le (![0, 3000] : Fin 2 → ℝ) 0
  · obtain ⟨j, hj⟩ := exists_eq_amin (![0, 3000] : Fin 2 → ℝ)
    rw [hj]
    fin_cases j <;> simp

/-- At the temperature -1/4 and the costs 0 and 3000 the exponential of row 1,
`exp(12000)`, is not a finite `double`. -/
theorem not_updateFinite_negative_temperature :
    ¬ updateFinite (some DBL_MAX) Real.exp (-1 / 4) (![0, 3000] : Fin 2 → ℝ) := by
  rintro ⟨-, -, h, -⟩
  have h1 := (isFinite_some_iff _ _).mp (h 1)
  have h2 : -1 / (-1 / 4 : ℝ) * costs_normalized (![0, 3000] : Fin 2 → ℝ) 1 = 12000 := by
    simp [costs_normalized, amin_sample_costs]
    norm_num
  rw [h2, abs_of_pos (Real.exp_pos _)] at h1
  exact absurd exp_overflow (not_lt.mpr h1)

/-- At the positive temperature `2 ^ (-1074)`, the least subnormal `double`, the
scale `-1 / temperature_` is not a finite `double`. -/
theorem not_updateFinite_subnormal_temperature {B : ℕ} [NeZero B] (K : Fin B → ℝ) :
    ¬ updateFinite (some DBL_MAX) Real.exp (1 / 2 ^ 1074) K := by
  rintro ⟨-, h, -, -⟩
  have h1 := (isFinite_some_iff _ _).mp h
  unfold DBL_MAX at h1
  norm_num at h1

/-! ## C1: the softmax is a convex combination -/

/-- Claim C1 as stated fails, in `double` arithmetic: at temperature 0 the scale
`-1 / temperature_` is not finite, and at temperature -1/4 with the costs 0 and
3000 the exponential `exp(12000)` is not; in both cases `updateControlSequence`
computes no weights that are non-negative and sum to 1, and no finite nominal
sequence. -/
theorem softmax_convex_zero_temperature_counterexample :
    (¬ ∃ w : Fin 2 → ℝ, softmaxes (some DBL_MAX) Real.exp 0 ![1, 2] = some w ∧
        (∀ b, 0 ≤ w b) ∧ ∑ b, w b = 1) ∧
      updateControlSequence (some DBL_MAX) Real.exp 0
        (fun (b : Fin 2) (_ : Fin 1) (_ : Fin 2) => (b.val : ℝ)) ![1, 2] = none ∧
      (¬ ∃ w : Fin 2 → ℝ, softmaxes (some DBL_MAX) Real.exp (-1 / 4) ![0, 3000] = some w ∧
        (∀ b, 0 ≤ w b) ∧ ∑ b, w b = 1) ∧
      updateControlSequence (some DBL_MAX) Real.exp (-1 / 4)
        (fun (b : Fin 2) (_ : Fin 1) (_ : Fin 2) => (b.val : ℝ)) ![0, 3000] = none := by
  refine ⟨?_, ?_, ?_, ?_⟩
  · rintro ⟨w, hw, -⟩
    rw [softmaxes_zero_temperature] at hw
    exact Option.noConfusion hw
  · simp [updateControlSequence, softmaxes_zero_temperature]
  · rintro ⟨w, hw, -⟩
    exact not_updateFinite_negative_temperature (updateFinite_of_softmaxes _ _ hw)
  · exact updateControlSequence_eq_none _ _ _ not_updateFinite_negative_temperature

/-- Claim C1, amended: for every non-empty batch of sampled controls, every cost
vector and every temperature at which the values computed by
`updateControlSequence` (the scale `-1 / temperature_`, the exponentials and
their sum) are finite in the scalar type, the weights are non-negative and sum
to 1, and every entry of the new nominal sequence lies between the least and
the greatest sampled control of its step and column.  The values are finite at
every positive temperature whose reciprocal is finite, for a batch size that is
finite in the scalar type. -/
theorem softmax_convex_combination {B H C : ℕ} [NeZero B] (fmax : Option ℝ)
    (controls : Fin B → Fin H → Fin C → ℝ) (K : Fin B → ℝ) (temperature : ℝ) :
    (updateFinite fmax Real.exp temperature K →
      ∃ w : Fin B → ℝ, softmaxes fmax Real.exp temperature K = some w ∧ (∀ b, 0 ≤ w b) ∧
        ∑ b, w b = 1 ∧
        ∃ U : Fin H → Fin C → ℝ,
          updateControlSequence fmax Real.exp temperature controls K = some U ∧
          ∀ t c, amin (fun b => controls b t c) ≤ U t c ∧
            U t c ≤ amax (fun b => controls b t c)) ∧
      (0 < temperature → isFinite fmax (-1 / temperature) = true →
        isFinite fmax (B : ℝ) = true → updateFinite fmax Real.exp temperature K) := by
  refine ⟨fun hfin => ?_, fun hT h1 hB => updateFinite_of_pos fmax K hT h1 hB⟩
  have hpos := sum_exponents_pos K (-1 / temperature)
  have hw : ∀ b, 0 ≤ Real.exp (-1 / temperature * costs_normalized K b) /
      ∑ j, Real.exp (-1 / temperature * costs_normalized K j) :=
    fun b => div_nonneg (Real.exp_pos _).le hpos.le
  have hsum : ∑ b, Real.exp (-1 / temperature * costs_normalized K b) /
      ∑ j, Real.exp (-1 / temperature * costs_normalized K j) = 1 := by
    rw [← Finset.sum_div, div_self hpos.ne']
  refine ⟨_, softmaxes_eq fmax K hfin, hw, hsum, _,
    updateControlSequence_eq fmax controls K hfin, ?_⟩
  intro t c
  exact convex_combination_bounds (fun b => controls b t c) _ hw hsum

/-- Claim C1, amended, in `double` arithmetic at a batch of two samples, costs 1
and 2 and temperature 1/4. -/
theorem softmax_convex_combination_witness :
    ((0 : ℝ) < 1 / 4) ∧ isFinite (some DBL_MAX) (-1 / (1 / 4 : ℝ)) = true ∧
    isFinite (some DBL_MAX) (((2 : ℕ) : ℝ)) = true ∧
    ∃ w : Fin 2 → ℝ, softmaxes (some DBL_MAX) Real.exp (1 / 4) ![1, 2] = some w ∧
      (∀ b, 0 ≤ w b) ∧ ∑ b, w b = 1 ∧
      ∃ U : Fin 1 → Fin 2 → ℝ,
        updateControlSequence (some DBL_MAX) Real.exp (1 / 4)
          (fun (b : Fin 2) (_ : Fin 1) (_ : Fin 2) => (b.val : ℝ)) ![1, 2] = some U ∧
        ∀ t c, amin (fun b : Fin 2 => (b.val : ℝ)) ≤ U t c ∧
          U t c ≤ amax (fun b : Fin 2 => (b.val : ℝ)) :=
  have h0 : (0 : ℝ) < 1 / 4 := by norm_num
  have h1 : isFinite (some DBL_MAX) (-1 / (1 / 4 : ℝ)) = true :=
    (isFinite_some_iff _ _).mpr (by norm_num [DBL_MAX])
  have hB : isFinite (some DBL_MAX) (((2 : ℕ) : ℝ)) = true :=
    (isFinite_some_iff _ _).mpr (by norm_num [DBL_MAX])
  ⟨h0, h1, hB,
    (softmax_convex_combination (some DBL_MAX)
      (fun (b : Fin 2) (_ : Fin 1) (_ : Fin 2) => (b.val : ℝ)) ![1, 2] (1 / 4)).1
      ((softmax_convex_combination (some DBL_MAX)
        (fun (b : Fin 2) (_ : Fin 1) (_ : Fin 2) => (b.val : ℝ)) ![1, 2] (1 / 4)).2 h0 h1 hB)⟩

/-! ## Helper lemmas on the rollout -/

theorem abs_clip_le {α : Type} [LinearOrderedField α] (v : α) {m : α} (hm : 0 ≤ m) :
    |clip v (-m) m| ≤ m := by
  unfold clip
  split_ifs with h1 h2
  · rw [abs_neg, abs_of_nonneg hm]
  · rw [abs_of_nonneg hm]
  · rw [abs_le]
    exact ⟨not_lt.mp h1, not_lt.mp h2⟩

/-- Each entry of the constrained controls is the clip of the entry it replaces,
to the limit of its column. -/
theorem applyControlConstraints_apply {α : Type} [LinearOrderedField α] {B H : ℕ}
    (o : Optimizer α) (controls : Fin B → Fin H → Fin o.cdim → α) (b : Fin B) (t : Fin H)
    (c : Fin o.cdim) :
    applyControlConstraints o controls b t c =
      clip (controls b t c) (-controlLimit o c) (controlLimit o c) := by
  obtain ⟨dt, ts, bs, ic, temp, vxm, vym, wzm, vxs, vys, wzs, m, si, ci⟩ := o
  cases m <;>
    simp only [applyControlConstraints, clipColumn, controlLimit, idxVX, idxWZ, idxVY,
      isHolonomic, controlDim, Fin.ext_iff] <;>
    fin_cases c <;> simp [clipColumn, Fin.ext_iff]

theorem propagateStep_controls {α : Type} [LinearOrderedField α] {B H C : ℕ}
    (model : Model α B C) (i : ℕ) (state : State α B H C) :
    (propagateStep model i state).controls = state.controls := by
  unfold propagateStep
  split_ifs <;> rfl

theorem foldl_propagateStep_controls {α : Type} [LinearOrderedField α] {B H C : ℕ}
    (model : Model α B C) (l : List ℕ) (state : State α B H C) :
    (l.foldl (fun s i => propagateStep model i s) state).controls = state.controls := by
  induction l generalizing state with
  | nil => rfl
  | cons i l ih => rw [List.foldl_cons, ih, propagateStep_controls]

/-- The control columns are not written by `updateStateVelocities`. -/
theorem updateStateVelocities_controls {α : Type} [LinearOrderedField α] {B H : ℕ} [NeZero H]
    (o : Optimizer α) (model : Model α B o.cdim) (state : State α B H o.cdim)
    (robot_speed : Twist α) :
    (updateStateVelocities o model state robot_speed).controls = state.controls := by
  unfold updateStateVelocities propagateStateVelocitiesFromInitials
  rw [foldl_propagateStep_controls]
  rfl

/-- The control columns of `state_` after `generateNoisedTrajectories`. -/
theorem generateNoisedTrajectories_controls {α : Type} [LinearOrderedField α] {B H : ℕ}
    [NeZero H] (cos sin : α → α) (o : Optimizer α) (model : Model α B o.cdim) (n : Noises α B H)
    (ts : Tensors α B H o.cdim) (robot_pose : PoseStamped α) (robot_speed : Twist α) :
    (generateNoisedTrajectories cos sin o model n ts robot_pose robot_speed).1.controls =
      applyControlConstraints o (generateNoisedControls o ts.control_sequence_ n) := by
  unfold generateNoisedTrajectories
  simp only [updateStateVelocities_controls]

/-! ## C2: control limits -/

/-- Claim C2: for every nominal sequence, every noise and non-negative limits
`vx_max`, `vy_max`, `wz_max`, after `generateNoisedTrajectories` every control
entry of `state_` is bounded in absolute value by the limit of its column, for
every column of the motion model. -/
theorem control_limits_after_generate {α : Type} [LinearOrderedField α] {B H : ℕ}
    [NeZero H] (cos sin : α → α) (o : Optimizer α) (model : Model α B o.cdim) (n : Noises α B H)
    (ts : Tensors α B H o.cdim) (robot_pose : PoseStamped α) (robot_speed : Twist α)
    (hvx : 0 ≤ o.vx_max_) (hvy : 0 ≤ o.vy_max_) (hwz : 0 ≤ o.wz_max_)
    (b : Fin B) (t : Fin H) (c : Fin o.cdim) :
    |(generateNoisedTrajectories cos sin o model n ts robot_pose robot_speed).1.controls b t c|
      ≤ controlLimit o c := by
  rw [generateNoisedTrajectories_controls, applyControlConstraints_apply]
  apply abs_clip_le
  unfold controlLimit
  split_ifs <;> assumption

/-- Claim C2 at the differential model with the default limits, a zero nominal
sequence and a noise of 5 in every entry. -/
theorem control_limits_after_generate_witness :
    (0 ≤ (sampleOptimizer MotionModel.Differential (1 / 10 : ℚ) (1 / 4) 2).vx_max_) ∧
    (0 ≤ (sampleOptimizer MotionModel.Differential (1 / 10 : ℚ) (1 / 4) 2).vy_max_) ∧
    (0 ≤ (sampleOptimizer MotionModel.Differential (1 / 10 : ℚ) (1 / 4) 2).wz_max_) ∧
    |(generateNoisedTrajectories (fun _ => 1) (fun _ => 0)
        (sampleOptimizer MotionModel.Differential (1 / 10 : ℚ) (1 / 4) 2)
        commandedVelocityModel (constantNoises 5 5 5 : Noises ℚ 1 1)
        (reset (sampleOptimizer MotionModel.Differential (1 / 10 : ℚ) (1 / 4) 2))
        ⟨0, 0, 0⟩ ⟨0, 0, 0⟩).1.controls 0 0
        (idxVX MotionModel.Differential)|
      ≤ controlLimit (sampleOptimizer MotionModel.Differential (1 / 10 : ℚ) (1 / 4) 2)
          (idxVX MotionModel.Differential) :=
  ⟨by norm_num [sampleOptimizer], by norm_num [sampleOptimizer], by norm_num [sampleOptimizer],
    control_limits_after_generate _ _ _ _ _ _ _ _ (by norm_num [sampleOptimizer])
      (by norm_num [sampleOptimizer]) (by norm_num [sampleOptimizer]) _ _ _⟩

/-! ## C3: zero costs give the batch mean -/

/-- Claim C3 as stated fails, in `double` arithmetic: with all costs 0, at
temperature 0 and at the positive temperature `2 ^ (-1074)` (the least
subnormal `double`) the scale `-1 / temperature_` is not finite, the update has
no finite value and the nominal sequence is not set to the batch mean. -/
theorem zero_cost_zero_temperature_counterexample :
    (∀ b : Fin 2, (fun _ : Fin 2 => (0 : ℝ)) b = 0) ∧
    updateControlSequence (some DBL_MAX) Real.exp 0
        (fun (b : Fin 2) (_ : Fin 1) (_ : Fin 2) => (b.val : ℝ)) (fun _ => 0) ≠
      some (fun _ _ => (∑ b : Fin 2, (b.val : ℝ)) / 2) ∧
    updateControlSequence (some DBL_MAX) Real.exp (1 / 2 ^ 1074)
        (fun (b : Fin 2) (_ : Fin 1) (_ : Fin 2) => (b.val : ℝ)) (fun _ => 0) ≠
      some (fun _ _ => (∑ b : Fin 2, (b.val : ℝ)) / 2) := by
  refine ⟨fun _ => rfl, ?_, ?_⟩
  · simp [updateControlSequence, softmaxes_zero_temperature]
  · rw [updateControlSequence_eq_none _ _ _ (not_updateFinite_subnormal_temperature _)]
    exact fun h => Option.noConfusion h

/-- With all costs 0 every value of the update is finite as soon as the scale
`-1 / temperature_` is. -/
theorem updateFinite_of_zero_costs {B : ℕ} [NeZero B] (fmax : Option ℝ) (K : Fin B → ℝ)
    {temperature : ℝ} (hK : ∀ b, K b = 0) (hT : temperature ≠ 0)
    (h1 : isFinite fmax (-1 / temperature) = true) (hB : isFinite fmax (B : ℝ) = true) :
    updateFinite fmax Real.exp temperature K := by
  have hn : ∀ b, costs_normalized K b = 0 := by
    intro b
    obtain ⟨j, hj⟩ := exists_eq_amin K
    simp [costs_normalized, hj, hK]
  have hB1 := one_le_batch B
  have habsB : |(B : ℝ)| = (B : ℝ) := abs_of_nonneg (by linarith)
  refine ⟨hT, h1, fun b => ?_, ?_⟩
  · apply isFinite_of_abs_le _ hB
    rw [hn, mul_zero, Real.exp_zero, habsB, abs_one]
    exact hB1
  · simp only [hn, mul_zero, Real.exp_zero, Finset.sum_const, Finset.card_univ,
      Fintype.card_fin, nsmul_eq_mul, mul_one]
    exact hB

/-- Claim C3, amended: if every entry of the cost vector is 0 and the scale
`-1 / temperature_` is finite in the scalar type (the temperature is not zero
and not so small that the division overflows), then for every non-empty batch,
of a size finite in the scalar type, `updateControlSequence` sets each entry of
the nominal sequence to the arithmetic mean, over the batch, of the sampled
controls of its step and column. -/
theorem zero_cost_mean {B H C : ℕ} [NeZero B] (fmax : Option ℝ)
    (controls : Fin B → Fin H → Fin C → ℝ) (K : Fin B → ℝ) (temperature : ℝ)
    (hK : ∀ b, K b = 0) (hT : temperature ≠ 0)
    (h1 : isFinite fmax (-1 / temperature) = true) (hB : isFinite fmax (B : ℝ) = true) :
    updateControlSequence fmax Real.exp temperature controls K =
      some (fun t c => (∑ b, controls b t c) / (B : ℝ)) := by
  have hn : ∀ b, costs_normalized K b = 0 := by
    intro b
    obtain ⟨j, hj⟩ := exists_eq_amin K
    simp [costs_normalized, hj, hK]
  rw [updateControlSequence_eq fmax controls K (updateFinite_of_zero_costs fmax K hK hT h1 hB)]
  simp only [hn, mul_zero, Real.exp_zero, Finset.sum_const, Finset.card_univ, Fintype.card_fin,
    nsmul_eq_mul, mul_one]
  congr 1
  funext t c
  rw [Finset.sum_div]
  exact Finset.sum_congr rfl fun b _ => (div_eq_mul_one_div _ _).symm

/-- Claim C3, amended, in `double` arithmetic at a batch of two samples and the
temperatures 1/4 and -1/4. -/
theorem zero_cost_mean_witness :
    (∀ b : Fin 2, (fun _ : Fin 2 => (0 : ℝ)) b = 0) ∧ ((1 / 4 : ℝ) ≠ 0) ∧
    isFinite (some DBL_MAX) (-1 / (1 / 4 : ℝ)) = true ∧
    isFinite (some DBL_MAX) (((2 : ℕ) : ℝ)) = true ∧
    updateControlSequence (some DBL_MAX) Real.exp (1 / 4)
        (fun (b : Fin 2) (_ : Fin 1) (_ : Fin 2) => (b.val : ℝ)) (fun _ => 0) =
      some (fun _ _ => (∑ b : Fin 2, (b.val : ℝ)) / ((2 : ℕ) : ℝ)) ∧
    updateControlSequence (some DBL_MAX) Real.exp (-1 / 4)
        (fun (b : Fin 2) (_ : Fin 1) (_ : Fin 2) => (b.val : ℝ)) (fun _ => 0) =
      some (fun _ _ => (∑ b : Fin 2, (b.val : ℝ)) / ((2 : ℕ) : ℝ)) :=
  have h1 : isFinite (some DBL_MAX) (-1 / (1 / 4 : ℝ)) = true :=
    (isFinite_some_iff _ _).mpr (by norm_num [DBL_MAX])
  have h2 : isFinite (some DBL_MAX) (-1 / (-1 / 4 : ℝ)) = true :=
    (isFinite_some_iff _ _).mpr (by norm_num [DBL_MAX])
  have hB : isFinite (some DBL_MAX) (((2 : ℕ) : ℝ)) = true :=
    (isFinite_some_iff _ _).mpr (by norm_num [DBL_MAX])
  ⟨fun _ => rfl, by norm_num, h1, hB,
    zero_cost_mean _ _ _ _ (fun _ => rfl) (by norm_num) h1 hB,
    zero_cost_mean _ _ _ _ (fun _ => rfl) (by norm_num) h2 hB⟩

/-! ## C4: the temperature limit -/

/-- A cost vector with a single minimiser attains its minimum there. -/
theorem amin_eq_of_unique_min {B : ℕ} [NeZero B] (K : Fin B → ℝ) (bstar : Fin B)
    (hmin : ∀ b, b ≠ bstar → K bstar < K b) : amin K = K bstar := by
  obtain ⟨j, hj⟩ := exists_eq_amin K
  by_cases h : j = bstar
  · rw [hj, h]
  · exact absurd (amin_le K bstar) (not_le.mpr (hj ▸ hmin j h))

/-- As the temperature tends to 0 from above, the exponential of a row tends to
1 at the single minimiser of the costs and to 0 elsewhere. -/
theorem tendsto_exponent {B : ℕ} [NeZero B] (K : Fin B → ℝ) (bstar : Fin B)
    (hmin : ∀ b, b ≠ bstar → K bstar < K b) (b : Fin B) :
    Filter.Tendsto (fun lam : ℝ => Real.exp (-1 / lam * costs_normalized K b))
      (nhdsWithin 0 (Set.Ioi 0)) (nhds (if b = bstar then 1 else 0)) := by
  have hm := amin_eq_of_unique_min K bstar hmin
  by_cases h : b = bstar
  · have h0 : costs_normalized K b = 0 := by simp [costs_normalized, hm, h]
    have h1 : (fun lam : ℝ => Real.exp (-1 / lam * costs_normalized K b)) = fun _ => 1 := by
      funext lam
      rw [h0, mul_zero, Real.exp_zero]
    rw [h1, if_pos h]
    exact tendsto_const_nhds
  · have hd : 0 < costs_normalized K b := by
      simp only [costs_normalized, hm]
      exact sub_pos.mpr (hmin b h)
    rw [if_neg h]
    apply Real.tendsto_exp_atBot.comp
    have h0 : Filter.Tendsto (fun lam : ℝ => lam⁻¹) (nhdsWithin 0 (Set.Ioi 0)) Filter.atTop :=
      tendsto_inv_zero_atTop
    have h1 : Filter.Tendsto (fun lam : ℝ => lam⁻¹ * costs_normalized K b)
        (nhdsWithin 0 (Set.Ioi 0)) Filter.atTop :=
      h0.atTop_mul_const hd
    have h2 := Filter.tendsto_neg_atTop_atBot.comp h1
    refine h2.congr fun lam => ?_
    simp only [Function.comp_apply]
    ring

/-- Claim C4: for fixed sampled controls and a cost vector whose minimum is
attained at a single batch index `bstar`, the nominal sequence produced by
`updateControlSequence` is defined at every positive temperature and converges,
entry by entry, to the controls of row `bstar` as the temperature tends to 0
from above.  This is read over exact reals (`fmax = none`); in a scalar type
with a largest finite value the same nominal sequence is produced at every
positive temperature whose reciprocal is finite. -/
theorem temperature_limit {B H C : ℕ} [NeZero B] (controls : Fin B → Fin H → Fin C → ℝ)
    (K : Fin B → ℝ) (bstar : Fin B) (hmin : ∀ b, b ≠ bstar → K bstar < K b) :
    ∃ U : ℝ → Fin H → Fin C → ℝ,
      (∀ lam, 0 < lam → updateControlSequence none Real.exp lam controls K = some (U lam)) ∧
      (∀ (fmax : Option ℝ) (lam : ℝ), 0 < lam → isFinite fmax (-1 / lam) = true →
        isFinite fmax (B : ℝ) = true →
        updateControlSequence fmax Real.exp lam controls K = some (U lam)) ∧
      ∀ t c, Filter.Tendsto (fun lam => U lam t c) (nhdsWithin 0 (Set.Ioi 0))
        (nhds (controls bstar t c)) := by
  refine ⟨fun lam t c => ∑ b, controls b t c *
      (Real.exp (-1 / lam * costs_normalized K b) /
        ∑ j, Real.exp (-1 / lam * costs_normalized K j)),
    fun lam hlam => updateControlSequence_eq none controls K
      (updateFinite_of_pos none K hlam rfl rfl),
    fun fmax lam hlam h1 hB => updateControlSequence_eq fmax controls K
      (updateFinite_of_pos fmax K hlam h1 hB), ?_⟩
  intro t c
  have hsum : Filter.Tendsto (fun lam : ℝ => ∑ j, Real.exp (-1 / lam * costs_normalized K j))
      (nhdsWithin 0 (Set.Ioi 0)) (nhds 1) := by
    have h := tendsto_finset_sum Finset.univ fun j _ => tendsto_exponent K bstar hmin j
    simpa using h
  have hw : ∀ b, Filter.Tendsto (fun lam : ℝ => controls b t c *
      (Real.exp (-1 / lam * costs_normalized K b) /
        ∑ j, Real.exp (-1 / lam * costs_normalized K j)))
      (nhdsWithin 0 (Set.Ioi 0)) (nhds (controls b t c * ((if b = bstar then 1 else 0) / 1))) :=
    fun b => ((tendsto_exponent K bstar hmin b).div hsum one_ne_zero).const_mul _
  have h := tendsto_finset_sum Finset.univ fun b _ => hw b
  simpa using h

/-- Claim C4 at a batch of two samples with costs 0 and 1: the minimum is
attained at row 0 only. -/
theorem temperature_limit_witness :
    (∀ b : Fin 2, b ≠ 0 → (![0, 1] : Fin 2 → ℝ) 0 < (![0, 1] : Fin 2 → ℝ) b) ∧
    ∃ U : ℝ → Fin 1 → Fin 2 → ℝ,
      (∀ lam, 0 < lam → updateControlSequence none Real.exp lam
        (fun (b : Fin 2) (_ : Fin 1) (_ : Fin 2) => (b.val : ℝ) + 3) ![0, 1] = some (U lam)) ∧
      ∀ t c, Filter.Tendsto (fun lam => U lam t c) (nhdsWithin 0 (Set.Ioi 0))
        (nhds (((0 : Fin 2).val : ℝ) + 3)) :=
  have h : ∀ b : Fin 2, b ≠ 0 → (![0, 1] : Fin 2 → ℝ) 0 < (![0, 1] : Fin 2 → ℝ) b := by
    intro b hb
    fin_cases b
    · exact absurd rfl hb
    · simp
  ⟨h,
    let ⟨U, h1, _, h3⟩ := temperature_limit
      (fun (b : Fin 2) (_ : Fin 1) (_ : Fin 2) => (b.val : ℝ) + 3) ![0, 1] 0 h
    ⟨U, h1, h3⟩⟩

/-! ## C5: integration at constant forward velocity -/

theorem cumsum_const {α : Type} [LinearOrderedField α] {B H : ℕ} (a : α) (b : Fin B)
    (t : Fin H) : cumsum (fun (_ : Fin B) (_ : Fin H) => a) b t = a * ((t.val : α) + 1) := by
  unfold cumsum
  rw [Finset.sum_const, Finset.filter_ge_eq_Iic, Fin.card_Iic, nsmul_eq_mul]
  push_cast
  ring

/-- With `wz ≡ 0` the integrated yaw is the initial yaw in every row. -/
theorem integratedYaw_of_wz_zero {α : Type} [LinearOrderedField α] {B H : ℕ} (o : Optimizer α)
    (state : State α B H o.cdim) (pose : PoseStamped α)
    (hw : ∀ b t, state.velocities b t (idxWZ o.motion_model_t_) = 0) (b : Fin B) (t : Fin H) :
    integratedYaw o state pose b t = pose.yaw := by
  simp [integratedYaw, cumsum, hw]

/-- With `wz ≡ 0` the yaw used to integrate positions is the initial yaw. -/
theorem yawOffseted_of_wz_zero {α : Type} [LinearOrderedField α] {B H : ℕ} (o : Optimizer α)
    (state : State α B H o.cdim) (pose : PoseStamped α)
    (hw : ∀ b t, state.velocities b t (idxWZ o.motion_model_t_) = 0) (b : Fin B) (t : Fin H) :
    yaw_offseted o state pose b t = pose.yaw := by
  unfold yaw_offseted
  split_ifs
  · rfl
  · exact integratedYaw_of_wz_zero o state pose hw b _

/-- The `x` column of `integrateStateVelocities` when `wz ≡ 0` and `vx ≡ v`. -/
theorem integrate_x_of_wz_zero {α : Type} [LinearOrderedField α] {B H : ℕ} (cos sin : α → α)
    (o : Optimizer α) (state : State α B H o.cdim) (pose : PoseStamped α) (v : α)
    (hw : ∀ b t, state.velocities b t (idxWZ o.motion_model_t_) = 0)
    (hv : ∀ b t, state.velocities b t (idxVX o.motion_model_t_) = v) (b : Fin B) (t : Fin H) :
    integrateStateVelocities cos sin o state pose b t 0 =
      pose.x + v * cos pose.yaw * o.model_dt_ * ((t.val : α) + 1) -
        (if h : isHolonomic o.motion_model_t_ = true then
          sin pose.yaw * o.model_dt_ *
            cumsum (fun b k => state.velocities b k (idxVY o.motion_model_t_ h)) b t
         else 0) := by
  have hc := cumsum_const (B := B) (v * cos pose.yaw * o.model_dt_) b t
  by_cases hh : isHolonomic o.motion_model_t_ = true
  · simp only [integrateStateVelocities, yawOffseted_of_wz_zero o state pose hw, hv, hh,
      dite_true, Fin.val_zero, if_true]
    unfold cumsum at hc ⊢
    simp only [sub_mul, Finset.sum_sub_distrib, hc, Finset.mul_sum]
    have hs : ∀ k : Fin H, state.velocities b k (idxVY o.motion_model_t_ hh) * sin pose.yaw *
        o.model_dt_ = sin pose.yaw * o.model_dt_ *
          state.velocities b k (idxVY o.motion_model_t_ hh) := fun k => by ring
    simp only [hs]
    ring
  · simp only [integrateStateVelocities, yawOffseted_of_wz_zero o state pose hw, hv, hh,
      Bool.false_eq_true, dite_false, Fin.val_zero, if_true, sub_zero]
    rw [hc]

/-- Claim C5 as stated fails: for the differential model with `wz ≡ 0`,
`vx ≡ 1`, step 1 and a start pose at `x0 = 0` heading along the negative x axis
(yaw `π`), the first `x` is `-1`, not `x0 + v * dt * 1 = 1`. -/
theorem integration_heading_counterexample :
    (∀ (b : Fin 1) (t : Fin 1),
      (constantVelocityState (sampleOptimizer MotionModel.Differential (1 : ℝ) (1 / 4) 2) 1 :
        State ℝ 1 1 _).velocities b t (idxWZ MotionModel.Differential) = 0) ∧
    (∀ (b : Fin 1) (t : Fin 1),
      (constantVelocityState (sampleOptimizer MotionModel.Differential (1 : ℝ) (1 / 4) 2) 1 :
        State ℝ 1 1 _).velocities b t (idxVX MotionModel.Differential) = 1) ∧
    integrateStateVelocities Real.cos Real.sin
        (sampleOptimizer MotionModel.Differential (1 : ℝ) (1 / 4) 2)
        (constantVelocityState (sampleOptimizer MotionModel.Differential (1 : ℝ) (1 / 4) 2) 1 :
          State ℝ 1 1 _)
        ⟨0, 0, Real.pi⟩ 0 0 0 = -1 ∧
    integrateStateVelocities Real.cos Real.sin
        (sampleOptimizer MotionModel.Differential (1 : ℝ) (1 / 4) 2)
        (constantVelocityState (sampleOptimizer MotionModel.Differential (1 : ℝ) (1 / 4) 2) 1 :
          State ℝ 1 1 _)
        ⟨0, 0, Real.pi⟩ 0 0 0 ≠
      (⟨0, 0, Real.pi⟩ : PoseStamped ℝ).x +
        1 * (sampleOptimizer MotionModel.Differential (1 : ℝ) (1 / 4) 2).model_dt_ *
          (((0 : Fin 1).val : ℝ) + 1) := by
  have hw : ∀ (b : Fin 1) (t : Fin 1),
      (constantVelocityState (sampleOptimizer MotionModel.Differential (1 : ℝ) (1 / 4) 2) 1 :
        State ℝ 1 1 _).velocities b t (idxWZ MotionModel.Differential) = 0 := by
    intro b t
    simp [constantVelocityState, sampleOptimizer, idxWZ, idxVX, controlDim, isHolonomic,
      Fin.ext_iff]
  have hv : ∀ (b : Fin 1) (t : Fin 1),
      (constantVelocityState (sampleOptimizer MotionModel.Differential (1 : ℝ) (1 / 4) 2) 1 :
        State ℝ 1 1 _).velocities b t (idxVX MotionModel.Differential) = 1 := by
    intro b t
    simp [constantVelocityState, sampleOptimizer]
  have hx := integrate_x_of_wz_zero Real.cos Real.sin
    (sampleOptimizer MotionModel.Differential (1 : ℝ) (1 / 4) 2)
    (constantVelocityState (sampleOptimizer MotionModel.Differential (1 : ℝ) (1 / 4) 2) 1 :
      State ℝ 1 1 _) ⟨0, 0, Real.pi⟩ 1 hw hv 0 0
  have hval : integrateStateVelocities Real.cos Real.sin
        (sampleOptimizer MotionModel.Differential (1 : ℝ) (1 / 4) 2)
        (constantVelocityState (sampleOptimizer MotionModel.Differential (1 : ℝ) (1 / 4) 2) 1 :
          State ℝ 1 1 _)
        ⟨0, 0, Real.pi⟩ 0 0 0 = -1 := by
    rw [hx]
    simp [sampleOptimizer, isHolonomic]
  refine ⟨hw, hv, hval, ?_⟩
  rw [hval]
  norm_num [sampleOptimizer]

/-- Claim C5, amended: for every start pose, batch size and horizon, if the
state's `wz` velocity is 0 and its `vx` velocity is the constant `v` in every
row, then the `x` column returned by `integrateStateVelocities` is
`x[b,t] = x0 + v * cos(yaw0) * dt * (t+1) - sin(yaw0) * dt * (vy[b,0] + ... + vy[b,t])`,
where `yaw0` is the yaw of the start pose and the `vy` term is present for a
holonomic model only; when `yaw0 = 0` this is `x[b,t] = x0 + v * dt * (t+1)`. -/
theorem integration_constant_velocity {B H : ℕ} (o : Optimizer ℝ) (state : State ℝ B H o.cdim)
    (pose : PoseStamped ℝ) (v : ℝ)
    (hw : ∀ b t, state.velocities b t (idxWZ o.motion_model_t_) = 0)
    (hv : ∀ b t, state.velocities b t (idxVX o.motion_model_t_) = v) (b : Fin B) (t : Fin H) :
    integrateStateVelocities Real.cos Real.sin o state pose b t 0 =
        pose.x + v * Real.cos pose.yaw * o.model_dt_ * ((t.val : ℝ) + 1) -
          (if h : isHolonomic o.motion_model_t_ = true then
            Real.sin pose.yaw * o.model_dt_ *
              cumsum (fun b k => state.velocities b k (idxVY o.motion_model_t_ h)) b t
           else 0) ∧
      (pose.yaw = 0 →
        integrateStateVelocities Real.cos Real.sin o state pose b t 0 =
          pose.x + v * o.model_dt_ * ((t.val : ℝ) + 1)) := by
  have hx := integrate_x_of_wz_zero Real.cos Real.sin o state pose v hw hv b t
  refine ⟨hx, fun h0 => ?_⟩
  rw [hx, h0]
  simp

/-- Claim C5, amended, at the differential model with `vx ≡ 1`, step 1 and a
start pose at the origin with yaw 0. -/
theorem integration_constant_velocity_witness :
    (∀ (b : Fin 1) (t : Fin 1),
      (constantVelocityState (sampleOptimizer MotionModel.Differential (1 : ℝ) (1 / 4) 2) 1 :
        State ℝ 1 1 _).velocities b t (idxWZ MotionModel.Differential) = 0) ∧
    (∀ (b : Fin 1) (t : Fin 1),
      (constantVelocityState (sampleOptimizer MotionModel.Differential (1 : ℝ) (1 / 4) 2) 1 :
        State ℝ 1 1 _).velocities b t (idxVX MotionModel.Differential) = 1) ∧
    ((⟨0, 0, 0⟩ : PoseStamped ℝ).yaw = 0) ∧
    integrateStateVelocities Real.cos Real.sin
        (sampleOptimizer MotionModel.Differential (1 : ℝ) (1 / 4) 2)
        (constantVelocityState (sampleOptimizer MotionModel.Differential (1 : ℝ) (1 / 4) 2) 1 :
          State ℝ 1 1 _)
        ⟨0, 0, 0⟩ 0 0 0 =
      (⟨0, 0, 0⟩ : PoseStamped ℝ).x +
        1 * (sampleOptimizer MotionModel.Differential (1 : ℝ) (1 / 4) 2).model_dt_ *
          (((0 : Fin 1).val : ℝ) + 1) :=
  have hw : ∀ (b : Fin 1) (t : Fin 1),
      (constantVelocityState (sampleOptimizer MotionModel.Differential (1 : ℝ) (1 / 4) 2) 1 :
        State ℝ 1 1 _).velocities b t (idxWZ MotionModel.Differential) = 0 := by
    intro b t
    simp [constantVelocityState, sampleOptimizer, idxWZ, idxVX, controlDim, isHolonomic,
      Fin.ext_iff]
  have hv : ∀ (b : Fin 1) (t : Fin 1),
      (constantVelocityState (sampleOptimizer MotionModel.Differential (1 : ℝ) (1 / 4) 2) 1 :
        State ℝ 1 1 _).velocities b t (idxVX MotionModel.Differential) = 1 := by
    intro b t
    simp [constantVelocityState, sampleOptimizer]
  ⟨hw, hv, rfl,
    (integration_constant_velocity (sampleOptimizer MotionModel.Differential (1 : ℝ) (1 / 4) 2)
      (constantVelocityState (sampleOptimizer MotionModel.Differential (1 : ℝ) (1 / 4) 2) 1)
      ⟨0, 0, 0⟩ 1 hw hv 0 0).2 rfl⟩

/-! ## C6: the goal critic -/

/-- The value `GoalCritic::score` adds, in closed form. -/
theorem goalCritic_score_apply {α : Type} [LinearOrderedField α] {B H P D : ℕ} [NeZero H]
    [NeZero P] (sqrt : α → α) (critic : GoalCritic α) (robot_pose : PoseStamped α)
    (trajectories : Fin B → Fin H → Fin 3 → α) (path : Fin P → Fin (D + 2) → α)
    (costs : Fin B → α) (b : Fin B) :
    GoalCritic.score sqrt critic robot_pose trajectories path costs b =
      costs b + (critic.weight_ *
        sqrt ((trajectories b (lastIdx H) 0 - path (lastIdx P) 0) ^ 2 +
          (trajectories b (lastIdx H) 1 - path (lastIdx P) 1) ^ 2)) ^ critic.power_ := by
  simp only [GoalCritic.score, Fin.sum_univ_two]
  rw [mul_comm]
  rfl

/-- Claim C6: for trajectories of horizon at least 1 and a non-empty path,
`GoalCritic::score` adds to each cost entry exactly `(w * d_b) ^ p`, with `d_b`
the Euclidean distance between the `(x, y)` of trajectory `b` at its last step
and the `(x, y)` of the last path point; the result is the same for any other
robot pose and any other trajectories and path that agree with these on those
four numbers. -/
theorem goal_critic_contribution {B H P D : ℕ} [NeZero H] [NeZero P] (critic : GoalCritic ℝ)
    (robot_pose : PoseStamped ℝ) (trajectories : Fin B → Fin H → Fin 3 → ℝ)
    (path : Fin P → Fin (D + 2) → ℝ) (costs : Fin B → ℝ) (b : Fin B) :
    GoalCritic.score Real.sqrt critic robot_pose trajectories path costs b =
        costs b + (critic.weight_ *
          Real.sqrt ((trajectories b (lastIdx H) 0 - path (lastIdx P) 0) ^ 2 +
            (trajectories b (lastIdx H) 1 - path (lastIdx P) 1) ^ 2)) ^ critic.power_ ∧
      ∀ (robot_pose2 : PoseStamped ℝ) (trajectories2 : Fin B → Fin H → Fin 3 → ℝ)
        (path2 : Fin P → Fin (D + 2) → ℝ),
        trajectories2 b (lastIdx H) 0 = trajectories b (lastIdx H) 0 →
        trajectories2 b (lastIdx H) 1 = trajectories b (lastIdx H) 1 →
        path2 (lastIdx P) 0 = path (lastIdx P) 0 →
        path2 (lastIdx P) 1 = path (lastIdx P) 1 →
        GoalCritic.score Real.sqrt critic robot_pose2 trajectories2 path2 costs b =
          GoalCritic.score Real.sqrt critic robot_pose trajectories path costs b := by
  refine ⟨goalCritic_score_apply _ _ _ _ _ _ _, ?_⟩
  intro robot_pose2 trajectories2 path2 h1 h2 h3 h4
  rw [goalCritic_score_apply, goalCritic_score_apply, h1, h2, h3, h4]

/-- Claim C6 at a trajectory ending at `(3, 4)` and a path ending at the
origin: another robot pose, yaw, first step and first path point give the same
costs. -/
theorem goal_critic_contribution_witness :
    sampleTrajectories (7 : ℝ) 9 0 (lastIdx 2) 0 = sampleTrajectories (0 : ℝ) 0 0 (lastIdx 2) 0 ∧
    sampleTrajectories (7 : ℝ) 9 0 (lastIdx 2) 1 = sampleTrajectories (0 : ℝ) 0 0 (lastIdx 2) 1 ∧
    samplePath (5 : ℝ) (lastIdx 2) 0 = samplePath (0 : ℝ) (lastIdx 2) 0 ∧
    samplePath (5 : ℝ) (lastIdx 2) 1 = samplePath (0 : ℝ) (lastIdx 2) 1 ∧
    GoalCritic.score Real.sqrt ⟨2, 3⟩ ⟨1, 2, 3⟩ (sampleTrajectories (7 : ℝ) 9) (samplePath 5)
        (fun _ => 1) 0 =
      GoalCritic.score Real.sqrt ⟨2, 3⟩ ⟨0, 0, 0⟩ (sampleTrajectories (0 : ℝ) 0) (samplePath 0)
        (fun _ => 1) 0 :=
  have h1 : sampleTrajectories (7 : ℝ) 9 0 (lastIdx 2) 0 =
      sampleTrajectories (0 : ℝ) 0 0 (lastIdx 2) 0 := by simp [sampleTrajectories, lastIdx]
  have h2 : sampleTrajectories (7 : ℝ) 9 0 (lastIdx 2) 1 =
      sampleTrajectories (0 : ℝ) 0 0 (lastIdx 2) 1 := by simp [sampleTrajectories, lastIdx]
  have h3 : samplePath (5 : ℝ) (lastIdx 2) 0 = samplePath (0 : ℝ) (lastIdx 2) 0 := by
    simp [samplePath, lastIdx]
  have h4 : samplePath (5 : ℝ) (lastIdx 2) 1 = samplePath (0 : ℝ) (lastIdx 2) 1 := by
    simp [samplePath, lastIdx]
  ⟨h1, h2, h3, h4,
    (goal_critic_contribution ⟨2, 3⟩ ⟨0, 0, 0⟩ (sampleTrajectories (0 : ℝ) 0) (samplePath 0)
      (fun _ => 1) 0).2 ⟨1, 2, 3⟩ (sampleTrajectories 7 9) (samplePath 5) h1 h2 h3 h4⟩

/-! ## C7: the loop of `evalControl` -/

/-- Claim C8 as stated fails: for the Ackermann model with a zero nominal
sequence and the noise `vx = 0`, `wz = 1`, the constrained controls are
`vx_cmd = 0` and `wz_cmd = 1`, so `|wz_cmd| ≤ |vx_cmd| / min_turning_radius`
fails (here for the radius 1). -/
theorem ackermann_turning_radius_counterexample :
    applyControlConstraints (sampleOptimizer MotionModel.Ackermann (1 / 10 : ℚ) (1 / 4) 2)
        (generateNoisedControls (sampleOptimizer MotionModel.Ackermann (1 / 10 : ℚ) (1 / 4) 2)
          (fun _ _ => 0) (constantNoises 0 0 1 : Noises ℚ 1 1))
        0 0 (idxVX MotionModel.Ackermann) = 0 ∧
    applyControlConstraints (sampleOptimizer MotionModel.Ackermann (1 / 10 : ℚ) (1 / 4) 2)
        (generateNoisedControls (sampleOptimizer MotionModel.Ackermann (1 / 10 : ℚ) (1 / 4) 2)
          (fun _ _ => 0) (constantNoises 0 0 1 : Noises ℚ 1 1))
        0 0 (idxWZ MotionModel.Ackermann) = 1 ∧
    ¬ (|applyControlConstraints (sampleOptimizer MotionModel.Ackermann (1 / 10 : ℚ) (1 / 4) 2)
        (generateNoisedControls (sampleOptimizer MotionModel.Ackermann (1 / 10 : ℚ) (1 / 4) 2)
          (fun _ _ => 0) (constantNoises 0 0 1 : Noises ℚ 1 1))
        0 0 (idxWZ MotionModel.Ackermann)| ≤
      |applyControlConstraints (sampleOptimizer MotionModel.Ackermann (1 / 10 : ℚ) (1 / 4) 2)
        (generateNoisedControls (sampleOptimizer MotionModel.Ackermann (1 / 10 : ℚ) (1 / 4) 2)
          (fun _ _ => 0) (constantNoises 0 0 1 : Noises ℚ 1 1))
        0 0 (idxVX MotionModel.Ackermann)| / 1) := by
  have hvx : applyControlConstraints (sampleOptimizer MotionModel.Ackermann (1 / 10 : ℚ) (1 / 4) 2)
        (generateNoisedControls (sampleOptimizer MotionModel.Ackermann (1 / 10 : ℚ) (1 / 4) 2)
          (fun _ _ => 0) (constantNoises 0 0 1 : Noises ℚ 1 1))
        0 0 (idxVX MotionModel.Ackermann) = 0 := by
    rw [applyControlConstraints_apply]
    simp [generateNoisedControls, concatenateNoises, constantNoises, controlLimit,
      sampleOptimizer, Optimizer.isHolonomic, isHolonomic, idxVX, clip]
    norm_num
  have hwz : applyControlConstraints (sampleOptimizer MotionModel.Ackermann (1 / 10 : ℚ) (1 / 4) 2)
        (generateNoisedControls (sampleOptimizer MotionModel.Ackermann (1 / 10 : ℚ) (1 / 4) 2)
          (fun _ _ => 0) (constantNoises 0 0 1 : Noises ℚ 1 1))
        0 0 (idxWZ MotionModel.Ackermann) = 1 := by
    rw [applyControlConstraints_apply]
    simp [generateNoisedControls, concatenateNoises, constantNoises, controlLimit,
      sampleOptimizer, Optimizer.isHolonomic, isHolonomic, idxVX, idxWZ, controlDim, clip,
      Fin.ext_iff]
    norm_num
  refine ⟨hvx, hwz, ?_⟩
  rw [hvx, hwz]
  norm_num

/-- Claim C8, amended: when the motion model is Ackermann and the limits are
non-negative, after `applyControlConstraints` every sampled control satisfies
`|wz_cmd[b,t]| ≤ wz_max` and `|vx_cmd[b,t]| ≤ vx_max`, for every nominal sequence
and noise; `wz_cmd` is the sampled value clipped to `[-wz_max, wz_max]`, whatever
`vx_cmd` is, and no bound by a turning radius is applied. -/
theorem ackermann_constraints {α : Type} [LinearOrderedField α] {B H : ℕ} (o : Optimizer α)
    (control_sequence_ : Fin H → Fin o.cdim → α) (n : Noises α B H)
    (hm : o.motion_model_t_ = MotionModel.Ackermann) (hvx : 0 ≤ o.vx_max_)
    (hwz : 0 ≤ o.wz_max_) (b : Fin B) (t : Fin H) :
    applyControlConstraints o (generateNoisedControls o control_sequence_ n) b t
        (idxWZ o.motion_model_t_) =
      clip (generateNoisedControls o control_sequence_ n b t (idxWZ o.motion_model_t_))
        (-o.wz_max_) o.wz_max_ ∧
    |applyControlConstraints o (generateNoisedControls o control_sequence_ n) b t
        (idxWZ o.motion_model_t_)| ≤ o.wz_max_ ∧
    |applyControlConstraints o (generateNoisedControls o control_sequence_ n) b t
        (idxVX o.motion_model_t_)| ≤ o.vx_max_ := by
  have h1 : controlLimit o (idxWZ o.motion_model_t_) = o.wz_max_ := by
    simp [controlLimit, hm, idxWZ, idxVX, controlDim, isHolonomic, Fin.ext_iff]
  have h2 : controlLimit o (idxVX o.motion_model_t_) = o.vx_max_ := by
    simp [controlLimit]
  rw [applyControlConstraints_apply, applyControlConstraints_apply, h1, h2]
  exact ⟨rfl, abs_clip_le _ hwz, abs_clip_le _ hvx⟩

/-- Claim C8, amended, at the Ackermann model with the default limits and the
noise `vx = 0`, `wz = 1`. -/
theorem ackermann_constraints_witness :
    ((sampleOptimizer MotionModel.Ackermann (1 / 10 : ℚ) (1 / 4) 2).motion_model_t_ =
      MotionModel.Ackermann) ∧
    (0 ≤ (sampleOptimizer MotionModel.Ackermann (1 / 10 : ℚ) (1 / 4) 2).vx_max_) ∧
    (0 ≤ (sampleOptimizer MotionModel.Ackermann (1 / 10 : ℚ) (1 / 4) 2).wz_max_) ∧
    |applyControlConstraints (sampleOptimizer MotionModel.Ackermann (1 / 10 : ℚ) (1 / 4) 2)
        (generateNoisedControls (sampleOptimizer MotionModel.Ackermann (1 / 10 : ℚ) (1 / 4) 2)
          (fun _ _ => 0) (constantNoises 0 0 1 : Noises ℚ 1 1))
        0 0 (idxWZ MotionModel.Ackermann)| ≤
      (sampleOptimizer MotionModel.Ackermann (1 / 10 : ℚ) (1 / 4) 2).wz_max_ :=
  ⟨rfl, by norm_num [sampleOptimizer], by norm_num [sampleOptimizer],
    (ackermann_constraints (sampleOptimizer MotionModel.Ackermann (1 / 10 : ℚ) (1 / 4) 2)
      (fun _ _ => 0) (constantNoises 0 0 1 : Noises ℚ 1 1) rfl (by norm_num [sampleOptimizer])
      (by norm_num [sampleOptimizer]) 0 0).2.1⟩

/-! ## C9: no validation at configure time -/

/-- Claim C10: when `getParams` reads a motion model name that the table does
not hold, the motion model and the layouts of the state tensor and of the
nominal control sequence are left as they were, and `getParams` still yields
an optimizer; when the table holds the name, the motion model and both layouts
are set to its variant. -/
theorem getParams_motion_model {α : Type} [LinearOrderedField α]
    (nmap : String → Option MotionModel) (params : Parameters α) (o : Optimizer α) :
    (nmap (getParam params.motion_model "diff") = none →
      (getParams nmap params o).motion_model_t_ = o.motion_model_t_ ∧
      (getParams nmap params o).state_idx = o.state_idx ∧
      (getParams nmap params o).control_sequence_idx = o.control_sequence_idx) ∧
    (∀ m, nmap (getParam params.motion_model "diff") = some m →
      (getParams nmap params o).motion_model_t_ = m ∧
      (getParams nmap params o).state_idx = StateIdxes.setLayout m ∧
      (getParams nmap params o).control_sequence_idx = ControlSequenceIdxes.setLayout m) := by
  constructor
  · intro h
    simp [getParams, h]
  · intro m h
    simp [getParams, h, setMotionModel]

/-- Claim C10 at the table of the specification: the name "tricycle" keeps the
omnidirectional model selected before, the name "ackermann" replaces it. -/
theorem getParams_motion_model_witness :
    (MOTION_MODEL_NAMES_MAP (getParam (motionModelParameters "tricycle" : Parameters ℚ).motion_model
      "diff") = none) ∧
    (MOTION_MODEL_NAMES_MAP (getParam (motionModelParameters "ackermann" : Parameters ℚ).motion_model
      "diff") = some MotionModel.Ackermann) ∧
    ((getParams MOTION_MODEL_NAMES_MAP (motionModelParameters "tricycle")
        (sampleOptimizer MotionModel.Omnidirectional (1 / 10 : ℚ) (1 / 4) 2)).motion_model_t_ =
      MotionModel.Omnidirectional) ∧
    ((getParams MOTION_MODEL_NAMES_MAP (motionModelParameters "ackermann")
        (sampleOptimizer MotionModel.Omnidirectional (1 / 10 : ℚ) (1 / 4) 2)).motion_model_t_ =
      MotionModel.Ackermann) :=
  have h1 : MOTION_MODEL_NAMES_MAP
      (getParam (motionModelParameters "tricycle" : Parameters ℚ).motion_model "diff") = none := by
    simp [MOTION_MODEL_NAMES_MAP, getParam, motionModelParameters]
  have h2 : MOTION_MODEL_NAMES_MAP
      (getParam (motionModelParameters "ackermann" : Parameters ℚ).motion_model "diff") =
        some MotionModel.Ackermann := by
    simp [MOTION_MODEL_NAMES_MAP, getParam, motionModelParameters]
  ⟨h1, h2,
    ((getParams_motion_model MOTION_MODEL_NAMES_MAP (motionModelParameters "tricycle")
      (sampleOptimizer MotionModel.Omnidirectional (1 / 10 : ℚ) (1 / 4) 2)).1 h1).1,
    ((getParams_motion_model MOTION_MODEL_NAMES_MAP (motionModelParameters "ackermann")
      (sampleOptimizer MotionModel.Omnidirectional (1 / 10 : ℚ) (1 / 4) 2)).2 _ h2).1⟩

/-! ## C11: sign of the goal critic's contribution -/

/-- Claim C11 as stated fails: with weight `-1` and power `1`, a trajectory
ending at `(3, 4)` and a path ending at the origin, `GoalCritic::score` adds a
negative value, so the cost entry is smaller after the call than before and a
cost of 0 becomes negative. -/
theorem goal_critic_negative_weight_counterexample :
    GoalCritic.score Real.sqrt ⟨1, -1⟩ ⟨0, 0, 0⟩ (sampleTrajectories (0 : ℝ) 0) (samplePath 0)
        (fun _ => 0) 0 < 0 := by
  rw [goalCritic_score_apply]
  have h : 0 < Real.sqrt ((sampleTrajectories (0 : ℝ) 0 0 (lastIdx 2) 0 -
      samplePath (0 : ℝ) (lastIdx 2) 0) ^ 2 +
      (sampleTrajectories (0 : ℝ) 0 0 (lastIdx 2) 1 - samplePath (0 : ℝ) (lastIdx 2) 1) ^ 2) := by
    apply Real.sqrt_pos.mpr
    simp [sampleTrajectories, samplePath, lastIdx]
    norm_num
  simp only [pow_one, zero_add]
  linarith

/-- Claim C11, amended: for every trajectory batch of horizon at least 1 and
every non-empty path, if the configured weight is non-negative or the
configured power is even, the contribution `GoalCritic::score` adds to each
entry of the cost vector is non-negative: no entry is smaller after the call
than before, and a non-negative cost vector stays non-negative. -/
theorem goal_critic_nonneg {B H P D : ℕ} [NeZero H] [NeZero P] (critic : GoalCritic ℝ)
    (robot_pose : PoseStamped ℝ) (trajectories : Fin B → Fin H → Fin 3 → ℝ)
    (path : Fin P → Fin (D + 2) → ℝ) (costs : Fin B → ℝ)
    (hw : 0 ≤ critic.weight_ ∨ Even critic.power_) :
    (∀ b, costs b ≤ GoalCritic.score Real.sqrt critic robot_pose trajectories path costs b) ∧
      ((∀ b, 0 ≤ costs b) →
        ∀ b, 0 ≤ GoalCritic.score Real.sqrt critic robot_pose trajectories path costs b) := by
  have h : ∀ b, costs b ≤
      GoalCritic.score Real.sqrt critic robot_pose trajectories path costs b := by
    intro b
    rw [goalCritic_score_apply]
    apply le_add_of_nonneg_right
    rcases hw with hw | hw
    · exact pow_nonneg (mul_nonneg hw (Real.sqrt_nonneg _)) _
    · exact hw.pow_nonneg _
  exact ⟨h, fun h0 b => (h0 b).trans (h b)⟩

/-- Claim C11, amended, at weight 3 and power 2, a trajectory ending at
`(3, 4)`, a path ending at the origin and costs 1. -/
theorem goal_critic_nonneg_witness :
    (0 ≤ (⟨2, 3⟩ : GoalCritic ℝ).weight_ ∨ Even (⟨2, 3⟩ : GoalCritic ℝ).power_) ∧
    (∀ b : Fin 1, 0 ≤ (fun _ : Fin 1 => (1 : ℝ)) b) ∧
    ∀ b, 0 ≤ GoalCritic.score Real.sqrt ⟨2, 3⟩ ⟨0, 0, 0⟩ (sampleTrajectories (0 : ℝ) 0)
      (samplePath 0) (fun _ => 1) b :=
  have hw : 0 ≤ (⟨2, 3⟩ : GoalCritic ℝ).weight_ ∨ Even (⟨2, 3⟩ : GoalCritic ℝ).power_ :=
    Or.inl (by norm_num)
  have h0 : ∀ b : Fin 1, 0 ≤ (fun _ : Fin 1 => (1 : ℝ)) b := fun _ => zero_le_one
  ⟨hw, h0,
    (goal_critic_nonneg ⟨2, 3⟩ ⟨0, 0, 0⟩ (sampleTrajectories (0 : ℝ) 0) (samplePath 0)
      (fun _ => 1) hw).2 h0⟩

/-! ## Helper lemmas on the integration -/

/-- The local `yaw` in the specification's form. -/
theorem integratedYaw_eq_specYaw {α : Type} [LinearOrderedField α] {B H : ℕ} (o : Optimizer α)
    (state : State α B H o.cdim) (pose : PoseStamped α) (b : Fin B) (t : Fin H) :
    integratedYaw o state pose b t = specYaw o state pose b t := by
  simp only [integratedYaw, specYaw, cumsum, Finset.mul_sum]
  rw [add_comm]
  congr 1
  exact Finset.sum_congr rfl fun k _ => mul_comm _ _

/-- The local `yaw_offseted` in the specification's form. -/
theorem yaw_offseted_eq_specStartYaw {α : Type} [LinearOrderedField α] {B H : ℕ}
    (o : Optimizer α) (state : State α B H o.cdim) (pose : PoseStamped α) (b : Fin B)
    (t : Fin H) : yaw_offseted o state pose b t = specStartYaw o state pose b t := by
  unfold yaw_offseted
  split_ifs with h
  · have hf : Finset.univ.filter (fun k : Fin H => k < t) = ∅ := by
      apply Finset.filter_false_of_mem
      intro k _
      rw [Fin.lt_def]
      omega
    simp [specStartYaw, hf]
  · rw [integratedYaw_eq_specYaw]
    unfold specYaw specStartYaw
    have hf : Finset.univ.filter (fun k : Fin H => k ≤ (⟨t.val - 1, by omega⟩ : Fin H)) =
        Finset.univ.filter (fun k : Fin H => k < t) := by
      apply Finset.filter_congr
      intro k _
      rw [Fin.le_def, Fin.lt_def]
      simp only
      omega
    rw [hf]

/-- Column 2 of the trajectories is the local `yaw`. -/
theorem integrateStateVelocities_yaw {α : Type} [LinearOrderedField α] {B H : ℕ}
    (cos sin : α → α) (o : Optimizer α) (state : State α B H o.cdim) (pose : PoseStamped α)
    (b : Fin B) (t : Fin H) :
    integrateStateVelocities cos sin o state pose b t 2 = specYaw o state pose b t := by
  rw [← integratedYaw_eq_specYaw]
  simp [integrateStateVelocities]

/-- Column 0 of the trajectories in the specification's form. -/
theorem integrateStateVelocities_x {α : Type} [LinearOrderedField α] {B H : ℕ}
    (cos sin : α → α) (o : Optimizer α) (state : State α B H o.cdim) (pose : PoseStamped α)
    (b : Fin B) (t : Fin H) :
    integrateStateVelocities cos sin o state pose b t 0 = specX cos sin o state pose b t := by
  by_cases hh : isHolonomic o.motion_model_t_ = true
  · simp only [integrateStateVelocities, specX, specVY, cumsum, yaw_offseted_eq_specStartYaw, hh,
      dite_true, Fin.val_zero, if_true, Finset.mul_sum]
    congr 1
    exact Finset.sum_congr rfl fun k _ => mul_comm _ _
  · simp only [integrateStateVelocities, specX, specVY, cumsum, yaw_offseted_eq_specStartYaw, hh,
      Bool.false_eq_true, dite_false, Fin.val_zero, if_true, Finset.mul_sum, zero_mul, sub_zero]
    congr 1
    exact Finset.sum_congr rfl fun k _ => mul_comm _ _

/-- Column 1 of the trajectories in the specification's form. -/
theorem integrateStateVelocities_y {α : Type} [LinearOrderedField α] {B H : ℕ}
    (cos sin : α → α) (o : Optimizer α) (state : State α B H o.cdim) (pose : PoseStamped α)
    (b : Fin B) (t : Fin H) :
    integrateStateVelocities cos sin o state pose b t 1 = specY cos sin o state pose b t := by
  by_cases hh : isHolonomic o.motion_model_t_ = true
  · simp only [integrateStateVelocities, specY, specVY, cumsum, yaw_offseted_eq_specStartYaw, hh,
      dite_true, Fin.val_one, if_true, one_ne_zero, if_false, Finset.mul_sum]
    congr 1
    exact Finset.sum_congr rfl fun k _ => mul_comm _ _
  · simp only [integrateStateVelocities, specY, specVY, cumsum, yaw_offseted_eq_specStartYaw, hh,
      Bool.false_eq_true, dite_false, Fin.val_one, if_true, one_ne_zero, if_false, Finset.mul_sum,
      zero_mul, add_zero]
    congr 1
    exact Finset.sum_congr rfl fun k _ => mul_comm _ _

/-! ## C12: shape of the trajectories -/

theorem loop_bound (H : ℕ) (h1 : 1 ≤ H) (h32 : H < 2 ^ 32) :
    (H + 2 ^ 32 - 1) % 2 ^ 32 = H - 1 := by
  omega

theorem assign_self2 (a b : ℕ) : Shape.assign [a, b] [a, b] = some [a, b] := by
  simp [Shape.assign, Shape.broadcast, broadcastRev]

/-- One pass of the loop of `propagateStateVelocitiesFromInitials` whose rows `i`
and `i + 1` lie within the horizon keeps the shape of the state. -/
theorem propagateStepShape_eq {α : Type} [LinearOrderedField α] (o : Optimizer α)
    (hs : o.state_idx = StateIdxes.setLayout o.motion_model_t_)
    (hc : o.control_sequence_idx = ControlSequenceIdxes.setLayout o.motion_model_t_)
    (B H i : ℕ) (h : i + 1 < H) :
    propagateStepShape o (stepShape o) [B, H, o.state_idx.dim] i =
      some [B, H, o.state_idx.dim] := by
  have hi : i < H := by omega
  rw [hs]
  unfold propagateStepShape stepShape
  rw [hs, hc]
  cases o.motion_model_t_ <;>
    simp [StateIdxes.setLayout, ControlSequenceIdxes.setLayout, isHolonomic, Shape.index,
      Shape.range, assign_self2, h, hi]

theorem propagateLoopShape_eq {α : Type} [LinearOrderedField α] (o : Optimizer α)
    (hs : o.state_idx = StateIdxes.setLayout o.motion_model_t_)
    (hc : o.control_sequence_idx = ControlSequenceIdxes.setLayout o.motion_model_t_)
    (B H k i : ℕ) (h : i + k < H) :
    propagateLoopShape o (stepShape o) [B, H, o.state_idx.dim] k i =
      some [B, H, o.state_idx.dim] := by
  induction k generalizing i with
  | zero => rfl
  | succ k ih =>
    rw [propagateLoopShape, propagateStepShape_eq o hs hc B H i (by omega), Option.some_bind]
    exact ih (i + 1) (by omega)

/-- With at least one time step, every view of the rollout lies within its
tensor and the result has the shape `[batch_size_, time_steps_, 3]`. -/
theorem generateNoisedTrajectoriesShape_eq {α : Type} [LinearOrderedField α] (o : Optimizer α)
    (hs : o.state_idx = StateIdxes.setLayout o.motion_model_t_)
    (hc : o.control_sequence_idx = ControlSequenceIdxes.setLayout o.motion_model_t_)
    (h1 : 1 ≤ o.time_steps_) (h32 : o.time_steps_ < 2 ^ 32) :
    generateNoisedTrajectoriesShape o (stepShape o) (resetShapes o).1 (resetShapes o).2 =
      some [o.batch_size_, o.time_steps_, 3] := by
  have hloop := propagateLoopShape_eq o hs hc o.batch_size_ o.time_steps_ (o.time_steps_ - 1) 0
    (by omega)
  have h0 : 0 < o.time_steps_ := h1
  unfold generateNoisedTrajectoriesShape propagateStateVelocitiesFromInitialsShape resetShapes
  rw [loop_bound _ h1 h32, hloop]
  unfold generateNoisedControlsShape applyControlConstraintsShape
    updateInitialStateVelocitiesShape integrateStateVelocitiesShape columnShape
    Optimizer.isHolonomic
  rw [hs, hc]
  cases o.motion_model_t_ <;>
    simp [StateIdxes.setLayout, ControlSequenceIdxes.setLayout, isHolonomic, Shape.index,
      Shape.range, Shape.assign, Shape.broadcast, broadcastRev, Shape.concatenate2,
      Shape.concatenate3, Shape.newaxis, h0, h1]

/-- Claim C12 as stated fails at the horizon 0, which `on_configure` accepts:
configured with `time_steps = 0` and `batch_size = 3`, the state has the shape
`[3, 0, 5]`, the view of row 0 taken by `updateInitialStateVelocities` lies
outside the time axis, the bound `time_steps_ - 1` of the loop of
`propagateStateVelocitiesFromInitials` is `2 ^ 32 - 1`, and the rollout has no
tensor of the shape `(3, 0, 3)` as its result. -/
theorem generated_trajectories_shape_zero_horizon_counterexample :
    (on_configure MOTION_MODEL_NAMES_MAP (Except.ok ())
        (sampleParameters (1 / 10 : ℚ) (1 / 4) 0 3)
        (sampleOptimizer MotionModel.Differential (1 / 10) (1 / 4) 2)).map
        (fun c => (c.optimizer.batch_size_, c.optimizer.time_steps_,
          (resetShapes c.optimizer).1,
          updateInitialStateVelocitiesShape c.optimizer (resetShapes c.optimizer).1,
          (c.optimizer.time_steps_ + 2 ^ 32 - 1) % 2 ^ 32,
          generateNoisedTrajectoriesShape c.optimizer (stepShape c.optimizer)
            (resetShapes c.optimizer).1 (resetShapes c.optimizer).2)) =
      Except.ok (3, 0, [3, 0, 5], none, 4294967295, none) := by
  have hn : MOTION_MODEL_NAMES_MAP "diff" = some MotionModel.Differential := by
    simp [MOTION_MODEL_NAMES_MAP]
  have h0 : toUnsigned 0 = 0 := by decide
  have h3 : toUnsigned 3 = 3 := by decide
  simp only [on_configure, getParams, getParam, sampleParameters, Option.getD_some,
    Option.getD_none, hn, setMotionModel, Except.map, h0, h3]
  rfl

/-- Claim C12, amended: for every configured batch size, every configured
horizon of at least one step and every motion model, holonomic or not, every
view taken by `generateNoisedTrajectories` lies within its tensor and the tensor
returned has the shape `(batch_size_, time_steps_, 3)`; its last axis holds `x`,
`y` and `yaw`, in this order, of the state the rollout leaves. -/
theorem generated_trajectories_shape {α : Type} [LinearOrderedField α] {B H : ℕ} [NeZero H]
    (cos sin : α → α) (o : Optimizer α) (model : Model α B o.cdim) (n : Noises α B H)
    (ts : Tensors α B H o.cdim) (robot_pose : PoseStamped α) (robot_speed : Twist α)
    (hB : o.batch_size_ = B) (hH : o.time_steps_ = H) (h32 : H < 2 ^ 32)
    (hs : o.state_idx = StateIdxes.setLayout o.motion_model_t_)
    (hc : o.control_sequence_idx = ControlSequenceIdxes.setLayout o.motion_model_t_) :
    generateNoisedTrajectoriesShape o (stepShape o) (resetShapes o).1 (resetShapes o).2 =
        some [B, H, 3] ∧
      ∀ b t,
        List.ofFn ((generateNoisedTrajectories cos sin o model n ts robot_pose robot_speed).2 b t) =
          [specX cos sin o
              (generateNoisedTrajectories cos sin o model n ts robot_pose robot_speed).1
              robot_pose b t,
            specY cos sin o
              (generateNoisedTrajectories cos sin o model n ts robot_pose robot_speed).1
              robot_pose b t,
            specYaw o (generateNoisedTrajectories cos sin o model n ts robot_pose robot_speed).1
              robot_pose b t] := by
  refine ⟨?_, ?_⟩
  · have h1 : 1 ≤ o.time_steps_ := by
      rw [hH]
      exact Nat.one_le_iff_ne_zero.mpr (NeZero.ne H)
    rw [generateNoisedTrajectoriesShape_eq o hs hc h1 (by rw [hH]; exact h32), hB, hH]
  · intro b t
    have h0 := integrateStateVelocities_x cos sin o
      (generateNoisedTrajectories cos sin o model n ts robot_pose robot_speed).1 robot_pose b t
    have h1 := integrateStateVelocities_y cos sin o
      (generateNoisedTrajectories cos sin o model n ts robot_pose robot_speed).1 robot_pose b t
    have h2 := integrateStateVelocities_yaw cos sin o
      (generateNoisedTrajectories cos sin o model n ts robot_pose robot_speed).1 robot_pose b t
    have hr : (generateNoisedTrajectories cos sin o model n ts robot_pose robot_speed).2 =
        integrateStateVelocities cos sin o
          (generateNoisedTrajectories cos sin o model n ts robot_pose robot_speed).1
          robot_pose := rfl
    rw [hr]
    simp only [List.ofFn_succ, List.ofFn_zero, Fin.succ_zero_eq_one, Fin.succ_one_eq_two]
    rw [h0, h1, h2]

/-- Claim C12, amended, at the omnidirectional model with the default batch
size 200 and the default 15 time steps. -/
theorem generated_trajectories_shape_witness :
    ((shapedOptimizer MotionModel.Omnidirectional 200 15 : Optimizer ℚ).batch_size_ = 200) ∧
    ((shapedOptimizer MotionModel.Omnidirectional 200 15 : Optimizer ℚ).time_steps_ = 15) ∧
    generateNoisedTrajectoriesShape
        (shapedOptimizer MotionModel.Omnidirectional 200 15 : Optimizer ℚ)
        (stepShape (shapedOptimizer MotionModel.Omnidirectional 200 15 : Optimizer ℚ))
        (resetShapes (shapedOptimizer MotionModel.Omnidirectional 200 15 : Optimizer ℚ)).1
        (resetShapes (shapedOptimizer MotionModel.Omnidirectional 200 15 : Optimizer ℚ)).2 =
      some [200, 15, 3] :=
  ⟨rfl, rfl,
    (generated_trajectories_shape (fun _ => 1) (fun _ => 0)
      (shapedOptimizer MotionModel.Omnidirectional 200 15 : Optimizer ℚ)
      commandedVelocityModel (constantNoises 5 5 5 : Noises ℚ 200 15)
      (sampleMembers (shapedOptimizer MotionModel.Omnidirectional 200 15 : Optimizer ℚ)).tensors
      ⟨0, 0, 0⟩ ⟨0, 0, 0⟩ rfl rfl (by norm_num) rfl rfl).1⟩

/-! ## C13: positions are integrated with the yaw at the start of the step -/

/-- Claim C13: with `theta[b,0] = initial_yaw` and
`theta[b,t] = initial_yaw + dt * (wz[b,0] + ... + wz[b,t-1])`, the positions
returned by `integrateStateVelocities` are
`x[b,t] = x0 + dt * sum over k ≤ t of (vx[b,k] * cos(theta[b,k]) - vy[b,k] * sin(theta[b,k]))`
and
`y[b,t] = y0 + dt * sum over k ≤ t of (vx[b,k] * sin(theta[b,k]) + vy[b,k] * cos(theta[b,k]))`,
where `vy` is the lateral velocity column of a holonomic model and is absent
(0) for any other model. -/
theorem positions_use_start_yaw {B H : ℕ} (o : Optimizer ℝ) (state : State ℝ B H o.cdim)
    (pose : PoseStamped ℝ) (b : Fin B) (t : Fin H) :
    integrateStateVelocities Real.cos Real.sin o state pose b t 0 =
        specX Real.cos Real.sin o state pose b t ∧
      integrateStateVelocities Real.cos Real.sin o state pose b t 1 =
        specY Real.cos Real.sin o state pose b t ∧
      (t.val = 0 → specStartYaw o state pose b t = pose.yaw) ∧
      (isHolonomic o.motion_model_t_ = false → specVY o state b t = 0) ∧
      (∀ h : isHolonomic o.motion_model_t_ = true,
        specVY o state b t = state.velocities b t (idxVY o.motion_model_t_ h)) := by
  refine ⟨integrateStateVelocities_x _ _ _ _ _ _ _, integrateStateVelocities_y _ _ _ _ _ _ _,
    ?_, ?_, ?_⟩
  · intro h0
    rw [← yaw_offseted_eq_specStartYaw]
    simp [yaw_offseted, h0]
  · intro h
    simp [specVY, h]
  · intro h
    simp [specVY, h]

/-- Claim C13 at the differential model, one batch entry and one step with
`vx = 1`: the first yaw used is the initial yaw and no `vy` term is present. -/
theorem positions_use_start_yaw_witness :
    ((0 : Fin 1).val = 0) ∧
    (isHolonomic (sampleOptimizer MotionModel.Differential (1 : ℝ) (1 / 4) 2).motion_model_t_ =
      false) ∧
    specStartYaw (sampleOptimizer MotionModel.Differential (1 : ℝ) (1 / 4) 2)
        (constantVelocityState (sampleOptimizer MotionModel.Differential (1 : ℝ) (1 / 4) 2) 1 :
          State ℝ 1 1 _) ⟨0, 0, Real.pi⟩ 0 0 = (⟨0, 0, Real.pi⟩ : PoseStamped ℝ).yaw ∧
    specVY (sampleOptimizer MotionModel.Differential (1 : ℝ) (1 / 4) 2)
        (constantVelocityState (sampleOptimizer MotionModel.Differential (1 : ℝ) (1 / 4) 2) 1 :
          State ℝ 1 1 _) 0 0 = 0 :=
  ⟨rfl, rfl,
    (positions_use_start_yaw (sampleOptimizer MotionModel.Differential (1 : ℝ) (1 / 4) 2)
      (constantVelocityState (sampleOptimizer MotionModel.Differential (1 : ℝ) (1 / 4) 2) 1)
      ⟨0, 0, Real.pi⟩ 0 0).2.2.1 rfl,
    (positions_use_start_yaw (sampleOptimizer MotionModel.Differential (1 : ℝ) (1 / 4) 2)
      (constantVelocityState (sampleOptimizer MotionModel.Differential (1 : ℝ) (1 / 4) 2) 1)
      ⟨0, 0, Real.pi⟩ 0 0).2.2.2.1 rfl⟩

/-! ## C14: the yaw column is the yaw after the step -/

/-- Claim C14: the yaw column returned by `integrateStateVelocities` is
`yaw[b,t] = initial_yaw + dt * (wz[b,0] + ... + wz[b,t])`, the sum including step
`t` itself; in particular `yaw[b,0] = initial_yaw + dt * wz[b,0]`. -/
theorem yaw_column_post_step {B H : ℕ} (o : Optimizer ℝ) (state : State ℝ B H o.cdim)
    (pose : PoseStamped ℝ) (b : Fin B) (t : Fin H) :
    integrateStateVelocities Real.cos Real.sin o state pose b t 2 =
        pose.yaw + o.model_dt_ *
          ∑ k ∈ Finset.univ.filter (fun k : Fin H => k ≤ t),
            state.velocities b k (idxWZ o.motion_model_t_) ∧
      (t.val = 0 →
        integrateStateVelocities Real.cos Real.sin o state pose b t 2 =
          pose.yaw + o.model_dt_ * state.velocities b t (idxWZ o.motion_model_t_)) := by
  have h := integrateStateVelocities_yaw Real.cos Real.sin o state pose b t
  refine ⟨h, fun h0 => ?_⟩
  rw [h]
  unfold specYaw
  have hf : Finset.univ.filter (fun k : Fin H => k ≤ t) = {t} := by
    ext k
    simp only [Finset.mem_filter, Finset.mem_univ, true_and, Finset.mem_singleton, Fin.le_def,
      Fin.ext_iff]
    omega
  rw [hf, Finset.sum_singleton]

/-- Claim C14 at the differential model, one batch entry and one step. -/
theorem yaw_column_post_step_witness :
    ((0 : Fin 1).val = 0) ∧
    integrateStateVelocities Real.cos Real.sin
        (sampleOptimizer MotionModel.Differential (1 : ℝ) (1 / 4) 2)
        (constantVelocityState (sampleOptimizer MotionModel.Differential (1 : ℝ) (1 / 4) 2) 1 :
          State ℝ 1 1 _) ⟨0, 0, Real.pi⟩ 0 0 2 =
      (⟨0, 0, Real.pi⟩ : PoseStamped ℝ).yaw +
        (sampleOptimizer MotionModel.Differential (1 : ℝ) (1 / 4) 2).model_dt_ *
          (constantVelocityState (sampleOptimizer MotionModel.Differential (1 : ℝ) (1 / 4) 2) 1 :
            State ℝ 1 1 _).velocities 0 0 (idxWZ MotionModel.Differential) :=
  ⟨rfl,
    (yaw_column_post_step (sampleOptimizer MotionModel.Differential (1 : ℝ) (1 / 4) 2)
      (constantVelocityState (sampleOptimizer MotionModel.Differential (1 : ℝ) (1 / 4) 2) 1)
      ⟨0, 0, Real.pi⟩ 0 0).2 rfl⟩

/-! ## C15: velocities after `updateStateVelocities` -/

/-- The velocity columns after `updateInitialStateVelocities`: row 0 holds the
measured velocity, the other rows are unchanged. -/
theorem updateInitialStateVelocities_apply {α : Type} [LinearOrderedField α] {B H : ℕ}
    [NeZero H] (o : Optimizer α) (state : State α B H o.cdim) (robot_speed : Twist α)
    (b : Fin B) (t : Fin H) (c : Fin o.cdim) :
    (updateInitialStateVelocities o state robot_speed).velocities b t c =
      if t.val = 0 then
        (if c = idxVX o.motion_model_t_ then robot_speed.linear_x
         else if c = idxWZ o.motion_model_t_ then robot_speed.angular_z
         else robot_speed.linear_y)
      else state.velocities b t c := by
  obtain ⟨dt, ts, bs, ic, temp, vxm, vym, wzm, vxs, vys, wzs, m, si, ci⟩ := o
  by_cases ht : t.val = 0 <;>
    cases m <;>
    simp only [updateInitialStateVelocities, setInitialVelocity, idxVX, idxWZ, idxVY,
      isHolonomic, controlDim, Fin.ext_iff] <;>
    fin_cases c <;> simp [ht, setInitialVelocity, Fin.ext_iff]

theorem idxWZ_ne_idxVX (m : MotionModel) : idxWZ m ≠ idxVX m := by
  cases m <;> simp [idxVX, idxWZ, controlDim, isHolonomic, Fin.ext_iff]

theorem idxVY_ne_idxVX (m : MotionModel) (h : isHolonomic m = true) :
    idxVY m h ≠ idxVX m := by
  cases m <;> simp [idxVX, idxVY, Fin.ext_iff]

theorem idxVY_ne_idxWZ (m : MotionModel) (h : isHolonomic m = true) :
    idxVY m h ≠ idxWZ m := by
  cases m
  · simp [isHolonomic] at h
  · simp [idxWZ, idxVY, controlDim, isHolonomic, Fin.ext_iff]
  · simp [isHolonomic] at h

/-- One pass of the loop of `propagateStateVelocitiesFromInitials` with the step
function that returns the control slice: row `i + 1` receives the controls of
row `i`. -/
theorem propagateStep_commanded {α : Type} [LinearOrderedField α] {B H C : ℕ} (i : ℕ)
    (state : State α B H C) (b : Fin B) (t : Fin H) (c : Fin C) :
    (propagateStep commandedVelocityModel i state).velocities b t c =
      if t.val = i + 1 then state.controls b ⟨t.val - 1, by omega⟩ c
      else state.velocities b t c := by
  unfold propagateStep
  split_ifs with h1 h2 h3
  · simp only [if_pos h2, commandedVelocityModel, State.row]
    congr 1
    exact Fin.ext (by simp only; omega)
  · simp only [if_neg h2]
  · omega
  · rfl

/-- The velocity columns after the first `n` passes of the loop of
`propagateStateVelocitiesFromInitials` with the step function that returns the
control slice: rows `1 .. n` hold the controls of the row before. -/
theorem foldl_propagateStep_commanded {α : Type} [LinearOrderedField α] {B H C : ℕ}
    (n : ℕ) (state : State α B H C) (b : Fin B) (t : Fin H) (c : Fin C) :
    ((List.range n).foldl (fun s i => propagateStep commandedVelocityModel i s)
        state).velocities b t c =
      if 1 ≤ t.val ∧ t.val ≤ n then state.controls b ⟨t.val - 1, by omega⟩ c
      else state.velocities b t c := by
  induction n with
  | zero =>
    have h : ¬ (1 ≤ t.val ∧ t.val ≤ 0) := by omega
    rw [List.range_zero, List.foldl_nil, if_neg h]
  | succ n ih =>
    rw [List.range_succ, List.foldl_append, List.foldl_cons, List.foldl_nil,
      propagateStep_commanded, foldl_propagateStep_controls, ih]
    by_cases h1 : t.val = n + 1
    · rw [if_pos h1, if_pos (by omega)]
    · rw [if_neg h1]
      by_cases h2 : 1 ≤ t.val ∧ t.val ≤ n
      · rw [if_pos h2, if_pos (by omega)]
      · rw [if_neg h2, if_neg (by omega)]

/-- Claim C15: for a horizon of at least one step and the step function of the
Differential and Omnidirectional models, which returns the control slice of
the row it is given, after `updateStateVelocities` the velocity slice of row 0
of every batch entry is the measured robot velocity (`linear.x`, `angular.z`,
and `linear.y` when holonomic), the velocity slice of row `t + 1` is the
control slice of row `t` whenever `t + 1 < H`, and the control columns are
unchanged. -/
theorem updateStateVelocities_commanded {α : Type} [LinearOrderedField α] {B H : ℕ} [NeZero H]
    (o : Optimizer α) (state : State α B H o.cdim) (robot_speed : Twist α) :
    (∀ b,
      (updateStateVelocities o commandedVelocityModel state robot_speed).velocities b 0
          (idxVX o.motion_model_t_) = robot_speed.linear_x ∧
      (updateStateVelocities o commandedVelocityModel state robot_speed).velocities b 0
          (idxWZ o.motion_model_t_) = robot_speed.angular_z ∧
      ∀ h : isHolonomic o.motion_model_t_ = true,
        (updateStateVelocities o commandedVelocityModel state robot_speed).velocities b 0
          (idxVY o.motion_model_t_ h) = robot_speed.linear_y) ∧
    (∀ b (t : Fin H) (h : t.val + 1 < H) c,
      (updateStateVelocities o commandedVelocityModel state robot_speed).velocities b
          ⟨t.val + 1, h⟩ c =
        (updateStateVelocities o commandedVelocityModel state robot_speed).controls b t c) ∧
    (updateStateVelocities o commandedVelocityModel state robot_speed).controls =
      state.controls := by
  have hv : ∀ b t c,
      (updateStateVelocities o commandedVelocityModel state robot_speed).velocities b t c =
        if 1 ≤ t.val ∧ t.val ≤ H - 1 then state.controls b ⟨t.val - 1, by omega⟩ c
        else (updateInitialStateVelocities o state robot_speed).velocities b t c := by
    intro b t c
    unfold updateStateVelocities propagateStateVelocitiesFromInitials
    rw [foldl_propagateStep_commanded]
    rfl
  have h0 : ((0 : Fin H) : ℕ) = 0 := Fin.val_zero' H
  refine ⟨fun b => ⟨?_, ?_, fun h => ?_⟩, ?_, updateStateVelocities_controls _ _ _ _⟩
  · rw [hv, if_neg (by omega), updateInitialStateVelocities_apply, if_pos h0, if_pos rfl]
  · rw [hv, if_neg (by omega), updateInitialStateVelocities_apply, if_pos h0,
      if_neg (idxWZ_ne_idxVX _), if_pos rfl]
  · rw [hv, if_neg (by omega), updateInitialStateVelocities_apply, if_pos h0,
      if_neg (idxVY_ne_idxVX _ h), if_neg (idxVY_ne_idxWZ _ h)]
  · intro b t h c
    rw [hv, if_pos (by simp only; omega), updateStateVelocities_controls]
    rfl

/-- Claim C15 at the omnidirectional model with one batch entry, two steps and
the measured velocity `(7, 8, 9)`. -/
theorem updateStateVelocities_commanded_witness :
    (isHolonomic (sampleOptimizer MotionModel.Omnidirectional (1 / 10 : ℚ) (1 / 4) 2).motion_model_t_
      = true) ∧
    ((0 : Fin 2).val + 1 < 2) ∧
    (updateStateVelocities (sampleOptimizer MotionModel.Omnidirectional (1 / 10 : ℚ) (1 / 4) 2)
        commandedVelocityModel
        (sampleMembers (sampleOptimizer MotionModel.Omnidirectional (1 / 10 : ℚ) (1 / 4) 2) :
          Members ℚ 1 2 _).tensors.state_ ⟨7, 8, 9⟩).velocities 0 0
        (idxVY MotionModel.Omnidirectional rfl) = (⟨7, 8, 9⟩ : Twist ℚ).linear_y ∧
    (updateStateVelocities (sampleOptimizer MotionModel.Omnidirectional (1 / 10 : ℚ) (1 / 4) 2)
        commandedVelocityModel
        (sampleMembers (sampleOptimizer MotionModel.Omnidirectional (1 / 10 : ℚ) (1 / 4) 2) :
          Members ℚ 1 2 _).tensors.state_ ⟨7, 8, 9⟩).velocities 0 ⟨(0 : Fin 2).val + 1, by decide⟩
        (idxVX MotionModel.Omnidirectional) =
      (updateStateVelocities (sampleOptimizer MotionModel.Omnidirectional (1 / 10 : ℚ) (1 / 4) 2)
        commandedVelocityModel
        (sampleMembers (sampleOptimizer MotionModel.Omnidirectional (1 / 10 : ℚ) (1 / 4) 2) :
          Members ℚ 1 2 _).tensors.state_ ⟨7, 8, 9⟩).controls 0 0
        (idxVX MotionModel.Omnidirectional) :=
  ⟨rfl, by decide,
    ((updateStateVelocities_commanded
      (sampleOptimizer MotionModel.Omnidirectional (1 / 10 : ℚ) (1 / 4) 2)
      (sampleMembers (sampleOptimizer MotionModel.Omnidirectional (1 / 10 : ℚ) (1 / 4) 2) :
        Members ℚ 1 2 _).tensors.state_ ⟨7, 8, 9⟩).1 0).2.2 rfl,
    (updateStateVelocities_commanded
      (sampleOptimizer MotionModel.Omnidirectional (1 / 10 : ℚ) (1 / 4) 2)
      (sampleMembers (sampleOptimizer MotionModel.Omnidirectional (1 / 10 : ℚ) (1 / 4) 2) :
        Members ℚ 1 2 _).tensors.state_ ⟨7, 8, 9⟩).2.1 0 0 (by decide) _⟩

/-! ## C16: subtracting the minimum does not change the update -/

/-- Closed form of the exponentials where every value of the update is finite. -/
theorem exponents_eq {B : ℕ} [NeZero B] (fmax : Option ℝ) (K : Fin B → ℝ) {temperature : ℝ}
    (hfin : updateFinite fmax Real.exp temperature K) :
    exponents fmax Real.exp temperature K =
      some (fun b => Real.exp (-1 / temperature * costs_normalized K b)) := by
  obtain ⟨hT, h1, h2, -⟩ := hfin
  simp [exponents, fdiv, hT, h1, h2]

/-- Claim C17 as stated fails, in `double` arithmetic, at the positive
temperature `2 ^ (-1074)` (the least subnormal `double`): the scale
`-1 / temperature_` is not finite, so for the row of minimum cost the exponent
is the product of an infinity and 0, and there are no exponentials with a sum of
at least 1 and no weights of at most 1. -/
theorem normalisation_subnormal_temperature_counterexample :
    ((0 : ℝ) < 1 / 2 ^ 1074) ∧
    fdiv (some DBL_MAX) (-1) (1 / 2 ^ 1074 : ℝ) = none ∧
    exponents (some DBL_MAX) Real.exp (1 / 2 ^ 1074) (![1, 2] : Fin 2 → ℝ) = none ∧
    softmaxes (some DBL_MAX) Real.exp (1 / 2 ^ 1074) (![1, 2] : Fin 2 → ℝ) = none := by
  have hk : fdiv (some DBL_MAX) (-1) (1 / 2 ^ 1074 : ℝ) = none := by
    apply fdiv_of_not_finite
    intro h
    have h1 := (isFinite_some_iff _ _).mp h
    unfold DBL_MAX at h1
    norm_num at h1
  refine ⟨by positivity, hk, ?_, ?_⟩
  · unfold exponents
    rw [hk]
    rfl
  · unfold softmaxes exponents
    rw [hk]
    rfl

/-- Claim C17, amended: for every non-empty batch (of a size finite in the
scalar type), every cost vector and every positive temperature whose reciprocal
is finite in the scalar type, the exponentials `exp(-(K_b - min K) / lambda)`
computed by `updateControlSequence` have a sum of at least 1, a row of minimum
cost contributing exactly 1, so the normalisation divides by a non-zero number;
every normalised weight is at most 1 and a row of minimum cost holds the
largest weight. -/
theorem normalisation_safe {B : ℕ} [NeZero B] (fmax : Option ℝ) (K : Fin B → ℝ)
    (temperature : ℝ) (hT : 0 < temperature) (h1 : isFinite fmax (-1 / temperature) = true)
    (hB : isFinite fmax (B : ℝ) = true) :
    ∃ e w : Fin B → ℝ,
      exponents fmax Real.exp temperature K = some e ∧
      softmaxes fmax Real.exp temperature K = some w ∧
      (∀ b, e b = Real.exp (-(K b - amin K) / temperature)) ∧
      (∃ b, K b = amin K) ∧
      (∀ b, K b = amin K → e b = 1) ∧
      1 ≤ ∑ b, e b ∧
      (∑ b, e b) ≠ 0 ∧
      (∀ b, w b = e b / ∑ j, e j) ∧
      (∀ b, w b ≤ 1) ∧
      ∀ bmin b, K bmin = amin K → w b ≤ w bmin := by
  have hfin := updateFinite_of_pos fmax K hT h1 hB
  obtain ⟨b0, hb0⟩ := exists_eq_amin K
  have hpos := sum_exponents_pos K (-1 / temperature)
  have hsingle : ∀ b, Real.exp (-1 / temperature * costs_normalized K b) ≤
      ∑ j, Real.exp (-1 / temperature * costs_normalized K j) := fun b =>
    Finset.single_le_sum (f := fun j => Real.exp (-1 / temperature * costs_normalized K j))
      (fun j _ => (Real.exp_pos _).le) (Finset.mem_univ b)
  have hone : 1 ≤ ∑ j, Real.exp (-1 / temperature * costs_normalized K j) :=
    (exponent_eq_one K temperature hb0.symm).symm.le.trans (hsingle b0)
  refine ⟨_, _, exponents_eq fmax K hfin, softmaxes_eq fmax K hfin, ?_, ⟨b0, hb0.symm⟩,
    fun b hb => exponent_eq_one K temperature hb, hone, hpos.ne', fun b => rfl, ?_, ?_⟩
  · intro b
    congr 1
    unfold costs_normalized
    ring
  · intro b
    rw [div_le_one hpos]
    exact hsingle b
  · intro bmin b hb
    apply div_le_div_of_nonneg_right _ hpos.le
    rw [exponent_eq_one K temperature hb]
    exact exponent_le_one K hT b

/-- Claim C17, amended, in `double` arithmetic at a batch of two samples with
costs 1 and 2 and temperature 1/4; row 0 has the minimum cost. -/
theorem normalisation_safe_witness :
    ((0 : ℝ) < 1 / 4) ∧ isFinite (some DBL_MAX) (-1 / (1 / 4 : ℝ)) = true ∧
    isFinite (some DBL_MAX) (((2 : ℕ) : ℝ)) = true ∧
    ∃ e w : Fin 2 → ℝ,
      exponents (some DBL_MAX) Real.exp (1 / 4) ![1, 2] = some e ∧
      softmaxes (some DBL_MAX) Real.exp (1 / 4) ![1, 2] = some w ∧
      1 ≤ ∑ b, e b ∧ (∀ b, w b ≤ 1) :=
  have h0 : (0 : ℝ) < 1 / 4 := by norm_num
  have h1 : isFinite (some DBL_MAX) (-1 / (1 / 4 : ℝ)) = true :=
    (isFinite_some_iff _ _).mpr (by norm_num [DBL_MAX])
  have hB : isFinite (some DBL_MAX) (((2 : ℕ) : ℝ)) = true :=
    (isFinite_some_iff _ _).mpr (by norm_num [DBL_MAX])
  ⟨h0, h1, hB,
    let ⟨e, w, he, hw, _, _, _, h2, _, _, h3, _⟩ :=
      normalisation_safe (some DBL_MAX) (![1, 2] : Fin 2 → ℝ) (1 / 4) h0 h1 hB
    ⟨e, w, he, hw, h2, h3⟩⟩

/-! ## C18: zero noise is a fixed point -/

theorem clip_of_abs_le {α : Type} [LinearOrderedField α] {v m : α} (h : |v| ≤ m) :
    clip v (-m) m = v := by
  obtain ⟨h1, h2⟩ := abs_le.mp h
  unfold clip
  rw [if_neg (not_lt.mpr h1), if_neg (not_lt.mpr h2)]

/-- With zero noise and a nominal sequence within its limits, every batch entry
of the constrained controls is the nominal sequence. -/
theorem constrained_controls_of_zero_noise {α : Type} [LinearOrderedField α] {B H : ℕ}
    (o : Optimizer α) (U : Fin H → Fin o.cdim → α) (n : Noises α B H)
    (hvx : ∀ b t, n.vx_noises b t = 0) (hvy : ∀ b t, n.vy_noises b t = 0)
    (hwz : ∀ b t, n.wz_noises b t = 0) (hU : ∀ t c, |U t c| ≤ controlLimit o c)
    (b : Fin B) (t : Fin H) (c : Fin o.cdim) :
    applyControlConstraints o (generateNoisedControls o U n) b t c = U t c := by
  have h0 : generateNoisedControls o U n b t c = U t c := by
    unfold generateNoisedControls concatenateNoises
    simp only [hvx, hvy, hwz, ite_self, add_zero]
  rw [applyControlConstraints_apply, h0]
  exact clip_of_abs_le (hU t c)

/-- With zero noise and a nominal sequence within its limits, the update gives
the nominal sequence back where every value of it is finite. -/
theorem update_of_zero_noise {B H : ℕ} [NeZero B] (fmax : Option ℝ) (o : Optimizer ℝ)
    (U : Fin H → Fin o.cdim → ℝ) (n : Noises ℝ B H) (K : Fin B → ℝ)
    (hvx : ∀ b t, n.vx_noises b t = 0) (hvy : ∀ b t, n.vy_noises b t = 0)
    (hwz : ∀ b t, n.wz_noises b t = 0) (hU : ∀ t c, |U t c| ≤ controlLimit o c)
    (hfin : updateFinite fmax Real.exp o.temperature_ K) :
    updateControlSequence fmax Real.exp o.temperature_
        (applyControlConstraints o (generateNoisedControls o U n)) K = some U := by
  have hpos := sum_exponents_pos K (-1 / o.temperature_)
  rw [updateControlSequence_eq fmax _ K hfin]
  congr 1
  funext t c
  simp only [constrained_controls_of_zero_noise o U n hvx hvy hwz hU]
  rw [← Finset.mul_sum, ← Finset.sum_div, div_self hpos.ne', mul_one]

/-- The nominal sequence with 1/4 in every entry is within the limits of the
sample optimizer. -/
theorem sample_sequence_within_limits (temperature : ℝ) (t : Fin 1)
    (c : Fin (sampleOptimizer MotionModel.Differential (1 / 10 : ℝ) temperature 2).cdim) :
    |(fun (_ : Fin 1)
        (_ : Fin (sampleOptimizer MotionModel.Differential (1 / 10 : ℝ) temperature 2).cdim) =>
        (1 / 4 : ℝ)) t c| ≤
      controlLimit (sampleOptimizer MotionModel.Differential (1 / 10 : ℝ) temperature 2) c := by
  show |(1 / 4 : ℝ)| ≤ _
  rw [abs_of_pos (by norm_num : (0 : ℝ) < 1 / 4)]
  simp only [controlLimit, sampleOptimizer]
  split_ifs <;> norm_num

/-- Claim C18 as stated fails, in `double` arithmetic: with zero noise and the
nominal sequence 1/4 (within every limit), at temperature 0, where the scale
`-1 / temperature_` is not finite, and at temperature -1/4 with the costs 0 and
3000, where the exponential `exp(12000)` is not, `updateControlSequence` has no
finite result, so the nominal sequence is not the one the iteration started
from. -/
theorem zero_noise_zero_temperature_counterexample :
    (∀ (t : Fin 1) (c : Fin (sampleOptimizer MotionModel.Differential (1 / 10 : ℝ) 0 2).cdim),
      |(fun _ _ => (1 / 4 : ℝ)) t c| ≤
        controlLimit (sampleOptimizer MotionModel.Differential (1 / 10 : ℝ) 0 2) c) ∧
    updateControlSequence (some DBL_MAX) Real.exp
        (sampleOptimizer MotionModel.Differential (1 / 10 : ℝ) 0 2).temperature_
        (applyControlConstraints (sampleOptimizer MotionModel.Differential (1 / 10 : ℝ) 0 2)
          (generateNoisedControls (sampleOptimizer MotionModel.Differential (1 / 10 : ℝ) 0 2)
            (fun _ _ => 1 / 4) (constantNoises 0 0 0 : Noises ℝ 2 1)))
        ![1, 2] ≠ some (fun _ _ => 1 / 4) ∧
    (∀ (t : Fin 1)
      (c : Fin (sampleOptimizer MotionModel.Differential (1 / 10 : ℝ) (-1 / 4) 2).cdim),
      |(fun _ _ => (1 / 4 : ℝ)) t c| ≤
        controlLimit (sampleOptimizer MotionModel.Differential (1 / 10 : ℝ) (-1 / 4) 2) c) ∧
    updateControlSequence (some DBL_MAX) Real.exp
        (sampleOptimizer MotionModel.Differential (1 / 10 : ℝ) (-1 / 4) 2).temperature_
        (applyControlConstraints
          (sampleOptimizer MotionModel.Differential (1 / 10 : ℝ) (-1 / 4) 2)
          (generateNoisedControls
            (sampleOptimizer MotionModel.Differential (1 / 10 : ℝ) (-1 / 4) 2)
            (fun _ _ => 1 / 4) (constantNoises 0 0 0 : Noises ℝ 2 1)))
        ![0, 3000] ≠ some (fun _ _ => 1 / 4) := by
  refine ⟨sample_sequence_within_limits 0, ?_, sample_sequence_within_limits (-1 / 4), ?_⟩
  · have hT : (sampleOptimizer MotionModel.Differential (1 / 10 : ℝ) 0 2).temperature_ = 0 := rfl
    rw [hT]
    simp [updateControlSequence, softmaxes_zero_temperature]
  · have hT : (sampleOptimizer MotionModel.Differential (1 / 10 : ℝ) (-1 / 4) 2).temperature_ =
        -1 / 4 := rfl
    rw [hT, updateControlSequence_eq_none _ _ _ not_updateFinite_negative_temperature]
    exact fun h => Option.noConfusion h

/-- Claim C18, amended: if the sampled noise is 0 everywhere and every entry of
the nominal sequence `U` is within its control limit, then at every temperature
at which the values computed by `updateControlSequence` are finite in the scalar
type, and so at every positive temperature whose reciprocal is finite (for a
batch size finite in the scalar type), after `generateNoisedControls`,
`applyControlConstraints` and `updateControlSequence` with any cost vector
(non-empty batch) the nominal sequence equals the `U` it started from. -/
theorem zero_noise_fixed_point {B H : ℕ} [NeZero B] (fmax : Option ℝ) (o : Optimizer ℝ)
    (U : Fin H → Fin o.cdim → ℝ) (n : Noises ℝ B H) (K : Fin B → ℝ)
    (hvx : ∀ b t, n.vx_noises b t = 0) (hvy : ∀ b t, n.vy_noises b t = 0)
    (hwz : ∀ b t, n.wz_noises b t = 0) (hU : ∀ t c, |U t c| ≤ controlLimit o c) :
    (updateFinite fmax Real.exp o.temperature_ K →
      updateControlSequence fmax Real.exp o.temperature_
        (applyControlConstraints o (generateNoisedControls o U n)) K = some U) ∧
    (0 < o.temperature_ → isFinite fmax (-1 / o.temperature_) = true →
      isFinite fmax (B : ℝ) = true →
      updateControlSequence fmax Real.exp o.temperature_
        (applyControlConstraints o (generateNoisedControls o U n)) K = some U) :=
  ⟨fun hfin => update_of_zero_noise fmax o U n K hvx hvy hwz hU hfin,
    fun hT h1 hB => update_of_zero_noise fmax o U n K hvx hvy hwz hU
      (updateFinite_of_pos fmax K hT h1 hB)⟩

/-- Claim C18, amended, in `double` arithmetic at the differential model with
temperature 1/4, the nominal sequence 1/4 and a batch of two samples with the
costs 1 and 2. -/
theorem zero_noise_fixed_point_witness :
    (∀ (b : Fin 2) (t : Fin 1), (constantNoises 0 0 0 : Noises ℝ 2 1).vx_noises b t = 0) ∧
    (∀ (b : Fin 2) (t : Fin 1), (constantNoises 0 0 0 : Noises ℝ 2 1).vy_noises b t = 0) ∧
    (∀ (b : Fin 2) (t : Fin 1), (constantNoises 0 0 0 : Noises ℝ 2 1).wz_noises b t = 0) ∧
    (∀ (t : Fin 1) (c : Fin (sampleOptimizer MotionModel.Differential (1 / 10 : ℝ) (1 / 4) 2).cdim),
      |(fun _ _ => (1 / 4 : ℝ)) t c| ≤
        controlLimit (sampleOptimizer MotionModel.Differential (1 / 10 : ℝ) (1 / 4) 2) c) ∧
    ((0 : ℝ) < (sampleOptimizer MotionModel.Differential (1 / 10 : ℝ) (1 / 4) 2).temperature_) ∧
    isFinite (some DBL_MAX)
      (-1 / (sampleOptimizer MotionModel.Differential (1 / 10 : ℝ) (1 / 4) 2).temperature_)
      = true ∧
    isFinite (some DBL_MAX) (((2 : ℕ) : ℝ)) = true ∧
    updateControlSequence (some DBL_MAX) Real.exp
        (sampleOptimizer MotionModel.Differential (1 / 10 : ℝ) (1 / 4) 2).temperature_
        (applyControlConstraints (sampleOptimizer MotionModel.Differential (1 / 10 : ℝ) (1 / 4) 2)
          (generateNoisedControls (sampleOptimizer MotionModel.Differential (1 / 10 : ℝ) (1 / 4) 2)
            (fun _ _ => 1 / 4) (constantNoises 0 0 0 : Noises ℝ 2 1)))
        ![1, 2] = some (fun _ _ => 1 / 4) :=
  have hT : (0 : ℝ) <
      (sampleOptimizer MotionModel.Differential (1 / 10 : ℝ) (1 / 4) 2).temperature_ := by
    norm_num [sampleOptimizer]
  have h1 : isFinite (some DBL_MAX)
      (-1 / (sampleOptimizer MotionModel.Differential (1 / 10 : ℝ) (1 / 4) 2).temperature_)
      = true :=
    (isFinite_some_iff _ _).mpr (by norm_num [DBL_MAX, sampleOptimizer])
  have hB : isFinite (some DBL_MAX) (((2 : ℕ) : ℝ)) = true :=
    (isFinite_some_iff _ _).mpr (by norm_num [DBL_MAX])
  ⟨fun _ _ => rfl, fun _ _ => rfl, fun _ _ => rfl, sample_sequence_within_limits (1 / 4), hT, h1,
    hB,
    (zero_noise_fixed_point (some DBL_MAX)
      (sampleOptimizer MotionModel.Differential (1 / 10 : ℝ) (1 / 4) 2)
      (fun _ _ => 1 / 4) (constantNoises 0 0 0 : Noises ℝ 2 1) ![1, 2] (fun _ _ => rfl)
      (fun _ _ => rfl) (fun _ _ => rfl) (sample_sequence_within_limits (1 / 4))).2 hT h1 hB⟩

/-! ## C19: a straight line along the initial heading -/

/-- The `y` column of `integrateStateVelocities` for a model without lateral
velocity when `wz ≡ 0` and `vx ≡ v`. -/
theorem integrate_y_of_wz_zero {α : Type} [LinearOrderedField α] {B H : ℕ} (cos sin : α → α)
    (o : Optimizer α) (state : State α B H o.cdim) (pose : PoseStamped α) (v : α)
    (hn : isHolonomic o.motion_model_t_ = false)
    (hw : ∀ b t, state.velocities b t (idxWZ o.motion_model_t_) = 0)
    (hv : ∀ b t, state.velocities b t (idxVX o.motion_model_t_) = v) (b : Fin B) (t : Fin H) :
    integrateStateVelocities cos sin o state pose b t 1 =
      pose.y + v * sin pose.yaw * o.model_dt_ * ((t.val : α) + 1) := by
  have hc := cumsum_const (B := B) (v * sin pose.yaw * o.model_dt_) b t
  simp only [integrateStateVelocities, yawOffseted_of_wz_zero o state pose hw, hv, hn,
    Bool.false_eq_true, dite_false, Fin.val_one, one_ne_zero, if_false, if_true]
  rw [hc]

/-- Claim C19: for a model without lateral velocity, if the state's `wz`
velocity is 0 and its `vx` velocity is the constant `v` in every row, then
`integrateStateVelocities` returns a straight line along the initial heading:
`yaw[b,t] = initial_yaw`, `x[b,t] = x0 + v * cos(initial_yaw) * dt * (t+1)` and
`y[b,t] = y0 + v * sin(initial_yaw) * dt * (t+1)`. -/
theorem straight_line_along_heading {B H : ℕ} (o : Optimizer ℝ) (state : State ℝ B H o.cdim)
    (pose : PoseStamped ℝ) (v : ℝ) (hn : isHolonomic o.motion_model_t_ = false)
    (hw : ∀ b t, state.velocities b t (idxWZ o.motion_model_t_) = 0)
    (hv : ∀ b t, state.velocities b t (idxVX o.motion_model_t_) = v) (b : Fin B) (t : Fin H) :
    integrateStateVelocities Real.cos Real.sin o state pose b t 2 = pose.yaw ∧
      integrateStateVelocities Real.cos Real.sin o state pose b t 0 =
        pose.x + v * Real.cos pose.yaw * o.model_dt_ * ((t.val : ℝ) + 1) ∧
      integrateStateVelocities Real.cos Real.sin o state pose b t 1 =
        pose.y + v * Real.sin pose.yaw * o.model_dt_ * ((t.val : ℝ) + 1) := by
  refine ⟨?_, ?_, integrate_y_of_wz_zero Real.cos Real.sin o state pose v hn hw hv b t⟩
  · rw [integrateStateVelocities_yaw, ← integratedYaw_eq_specYaw]
    exact integratedYaw_of_wz_zero o state pose hw b t
  · rw [integrate_x_of_wz_zero Real.cos Real.sin o state pose v hw hv b t]
    simp [hn]

/-- Claim C19 at the differential model with `vx ≡ 1`, step 1 and a start pose
at the origin with yaw `π`: the first pose is `(-1, 0, π)`. -/
theorem straight_line_along_heading_witness :
    (isHolonomic (sampleOptimizer MotionModel.Differential (1 : ℝ) (1 / 4) 2).motion_model_t_ =
      false) ∧
    (∀ (b : Fin 1) (t : Fin 1),
      (constantVelocityState (sampleOptimizer MotionModel.Differential (1 : ℝ) (1 / 4) 2) 1 :
        State ℝ 1 1 _).velocities b t (idxWZ MotionModel.Differential) = 0) ∧
    (∀ (b : Fin 1) (t : Fin 1),
      (constantVelocityState (sampleOptimizer MotionModel.Differential (1 : ℝ) (1 / 4) 2) 1 :
        State ℝ 1 1 _).velocities b t (idxVX MotionModel.Differential) = 1) ∧
    integrateStateVelocities Real.cos Real.sin
        (sampleOptimizer MotionModel.Differential (1 : ℝ) (1 / 4) 2)
        (constantVelocityState (sampleOptimizer MotionModel.Differential (1 : ℝ) (1 / 4) 2) 1 :
          State ℝ 1 1 _)
        ⟨0, 0, Real.pi⟩ 0 0 2 = (⟨0, 0, Real.pi⟩ : PoseStamped ℝ).yaw :=
  have hw : ∀ (b : Fin 1) (t : Fin 1),
      (constantVelocityState (sampleOptimizer MotionModel.Differential (1 : ℝ) (1 / 4) 2) 1 :
        State ℝ 1 1 _).velocities b t (idxWZ MotionModel.Differential) = 0 := by
    intro b t
    simp [constantVelocityState, sampleOptimizer, idxWZ, idxVX, controlDim, isHolonomic,
      Fin.ext_iff]
  have hv : ∀ (b : Fin 1) (t : Fin 1),
      (constantVelocityState (sampleOptimizer MotionModel.Differential (1 : ℝ) (1 / 4) 2) 1 :
        State ℝ 1 1 _).velocities b t (idxVX MotionModel.Differential) = 1 := by
    intro b t
    simp [constantVelocityState, sampleOptimizer]
  ⟨rfl, hw, hv,
    (straight_line_along_heading (sampleOptimizer MotionModel.Differential (1 : ℝ) (1 / 4) 2)
      (constantVelocityState (sampleOptimizer MotionModel.Differential (1 : ℝ) (1 / 4) 2) 1)
      ⟨0, 0, Real.pi⟩ 1 rfl hw hv 0 0).1⟩

end mppi.optimization
